import Mathlib

/-!
# Copy-Pasta-AppEngine: a verification development of `main.go`

A shallow embedding of the Go program `src/main.go` (a Google+ sign-in demo
server with a paste/copy feature on the App Engine datastore) together with
theorems about it.

Conventions of the embedding

* A Go `string` / `[]byte` is a list of bytes (`GoString`); string literals of
  the source are written `utf8 "..."`.
* A Go function returning `(value, error)` returns a pair whose second
  component is `Option Error` (`none` is Go's `nil` error).  The pair is kept
  (rather than a sum type) because the source sometimes goes on using the
  value after an error.
* Everything a handler obtains from outside the program (request, cookie
  session, HTTP fetches, clock, random source, template engine, datastore
  failures) is read from an `Env` record; everything it does to the outside
  is recorded in its `Outcome` (response writer, session, datastore, trace of
  external calls, panic).
* Library functions of the Go standard library on which the stated properties depend
  (`strings.Split`, `encoding/base64`, `unicode/utf8`, `encoding/json`,
  `net/url.QueryEscape`, the `http.ResponseWriter` protocol) are modelled
  after the documented behaviour of the Go standard library.  Machine words
  are natural numbers; shifts and masks of the library code are written with
  `*`, `/` and `%` by powers of two.
* Logging (`log.Println`, `c.Infof`, `c.Errorf`) has no effect on any value the
  program computes and is not modelled.
-/

namespace CopyPasta

/-! ## Bytes and strings -/

/-- An octet. -/
abbrev Byte := Fin 256

/-- A Go `string` or `[]byte`: a finite sequence of octets. -/
abbrev GoString := List Byte

/-- Conversion `byte(n)`: the low eight bits of `n`. -/
def byte (n : Nat) : Byte := ⟨n % 256, Nat.mod_lt _ (by decide)⟩

/-- Go `utf8.EncodeRune`: the UTF-8 encoding of the rune `r`; surrogates and
values above U+10FFFF are encoded as U+FFFD. -/
def encodeRune (r : Nat) : GoString :=
  if r < 0x80 then [byte r]
  else if r < 0x800 then [byte (0xC0 + r / 64), byte (0x80 + r % 64)]
  else if (0xD800 ≤ r ∧ r < 0xE000) ∨ 0x10FFFF < r then [0xEF, 0xBF, 0xBD]
  else if r < 0x10000 then
    [byte (0xE0 + r / 4096), byte (0x80 + r / 64 % 64), byte (0x80 + r % 64)]
  else
    [byte (0xF0 + r / 262144), byte (0x80 + r / 4096 % 64), byte (0x80 + r / 64 % 64),
      byte (0x80 + r % 64)]

/-- The bytes of a string literal (the UTF-8 encoding of its characters). -/
def utf8 (s : String) : GoString := s.toList.flatMap (fun c => encodeRune c.toNat)

/-! ## Errors -/

/-- Go `error` values that occur in the program. -/
inductive Error where
  /-- Go `errors.New(text)`, and `fmt.Errorf(text)` without arguments -/
  | new (text : String)
  /-- Go `fmt.Errorf(format, err)` with one `%v` verb -/
  | errorf (format : String) (arg : Error)
  /-- Go `base64.CorruptInputError(offset)` -/
  | corruptInput (offset : Nat)
  /-- Go `*json.SyntaxError`, `io.ErrUnexpectedEOF` of the JSON decoder -/
  | jsonSyntax
  /-- Go `*json.UnmarshalTypeError` -/
  | jsonUnmarshalType
  /-- Go `io.EOF` -/
  | eof
  /-- an error returned by an external package or service, by its `Error()` text -/
  | external (text : String)
  deriving DecidableEq, Repr

/-! ## `strings.Split` -/

/-- Go `strings.Split(s, sep)` for a one-byte separator `sep`: the substrings
between the separators; a string without separator (also the empty string)
gives the one-element list `[s]`. -/
def stringsSplit (sep : Byte) : GoString → List GoString
  | [] => [[]]
  | b :: bs =>
    if b = sep then [] :: stringsSplit sep bs
    else match stringsSplit sep bs with
      | [] => [[b]]
      | p :: ps => (b :: p) :: ps

/-! ## `encoding/base64` -/

/-- The alphabet of `base64.URLEncoding` (`encodeURL`). -/
def encodeURL : GoString :=
  utf8 "ABCDEFGHIJKLMNOPQRSTUVWXYZabcdefghijklmnopqrstuvwxyz0123456789-_"

/-- The alphabet of `base64.StdEncoding` (`encodeStd`). -/
def encodeStd : GoString :=
  utf8 "ABCDEFGHIJKLMNOPQRSTUVWXYZabcdefghijklmnopqrstuvwxyz0123456789+/"

/-- The character `enc.encode[i]` of an alphabet. -/
def encodeChar (alphabet : GoString) (i : Nat) : Byte := alphabet.getD i 0

/-- The table `enc.decodeMap`: the index of a character in the alphabet, `none`
(0xFF in Go) for a character outside it. -/
def decodeMap (alphabet : GoString) (b : Byte) : Option Nat :=
  if alphabet.indexOf b < 64 then some (alphabet.indexOf b) else none

/-- Go `(*Encoding).EncodeToString` with standard `=` padding. -/
def encodeToString (alphabet : GoString) : List Byte → GoString
  | [] => []
  | [a] =>
    [encodeChar alphabet (a.val / 4), encodeChar alphabet (a.val % 4 * 16), 61, 61]
  | [a, b] =>
    [encodeChar alphabet (a.val / 4), encodeChar alphabet (a.val % 4 * 16 + b.val / 16),
      encodeChar alphabet (b.val % 16 * 4), 61]
  | a :: b :: c :: rest =>
    encodeChar alphabet (a.val / 4) :: encodeChar alphabet (a.val % 4 * 16 + b.val / 16) ::
      encodeChar alphabet (b.val % 16 * 4 + c.val / 64) :: encodeChar alphabet (c.val % 64) ::
      encodeToString alphabet rest

/-- Go `strings.TrimRight(s, "=")`: `s` without its trailing `=` characters. -/
def trimRightPad : GoString → GoString
  | [] => []
  | b :: bs =>
    match trimRightPad bs with
    | [] => if b = 61 then [] else [b]
    | r :: rs => b :: r :: rs

/-- The loop `for si < len(src) && (src[si] == '\n' || src[si] == '\r') { si++ }`
of `decodeQuantum`; returns the remaining input and the new `si`. -/
def skipNewlines : GoString → Nat → GoString × Nat
  | [], si => ([], si)
  | b :: bs, si => if b = 10 ∨ b = 13 then skipNewlines bs (si + 1) else (b :: bs, si)

/-- The three bytes held by the four six-bit values `dbuf` of a quantum
(`val := dbuf[0]<<18 | dbuf[1]<<12 | dbuf[2]<<6 | dbuf[3]`), of which the
first `dlen - 1` are output. -/
def quantumBytes (dbuf : List Nat) (dlen : Nat) : List Byte :=
  let val := dbuf.getD 0 0 * 262144 + dbuf.getD 1 0 * 4096 + dbuf.getD 2 0 * 64 + dbuf.getD 3 0
  [byte (val / 65536), byte (val / 256), byte val].take (dlen - 1)

/-- Go `(*Encoding).Decode` for a padded, non-strict encoding (the loop over
`decodeQuantum`), as one pass over the remaining input.  `srcLen` is
`len(src)`, `si` the index of the next input byte, `dbuf` the six-bit values
read so far in the current quantum (so `j = dbuf.length`), `out` the bytes
decoded so far.  Returns the decoded bytes and the error. -/
def decodeLoop (alphabet : GoString) (srcLen : Nat) :
    GoString → Nat → List Nat → List Byte → List Byte × Option Error
  | [], si, dbuf, out =>
    -- `len(src) == si`: fine between quanta, an error inside one
    if dbuf.length = 0 then (out, none)
    else (out, some (.corruptInput (si - dbuf.length)))
  | c :: rest, si, dbuf, out =>
    match decodeMap alphabet c with
    | some v =>
      if dbuf.length = 3 then
        decodeLoop alphabet srcLen rest (si + 1) [] (out ++ quantumBytes (dbuf ++ [v]) 4)
      else decodeLoop alphabet srcLen rest (si + 1) (dbuf ++ [v]) out
    | none =>
      if c = 10 ∨ c = 13 then decodeLoop alphabet srcLen rest (si + 1) dbuf out
      else if c ≠ 61 then (out, some (.corruptInput si))
      else if dbuf.length < 2 then (out, some (.corruptInput si))
      else if dbuf.length = 2 then
        -- "==" is expected, the first "=" is already consumed
        match skipNewlines rest (si + 1) with
        | ([], _) => (out, some (.corruptInput srcLen))
        | (c2 :: rest2, si2) =>
          if c2 ≠ 61 then (out, some (.corruptInput (si2 - 1)))
          else
            match skipNewlines rest2 (si2 + 1) with
            | ([], _) => (out ++ quantumBytes dbuf 2, none)
            | (_ :: _, si3) => (out ++ quantumBytes dbuf 2, some (.corruptInput si3))
      else
        match skipNewlines rest (si + 1) with
        | ([], _) => (out ++ quantumBytes dbuf 3, none)
        | (_ :: _, si3) => (out ++ quantumBytes dbuf 3, some (.corruptInput si3))

/-- Go `(*Encoding).DecodeString`. -/
def decodeString (alphabet : GoString) (s : GoString) : List Byte × Option Error :=
  decodeLoop alphabet s.length s 0 [] []

/-! ## `main.go`: `base64Decode` -/

/-- Function `base64Decode` of `main.go`: adds back missing padding according to
`len(s) % 4`, then `base64.URLEncoding.DecodeString`. -/
def base64Decode (s : GoString) : List Byte × Option Error :=
  let s :=
    match s.length % 4 with
    | 2 => s ++ utf8 "=="
    | 3 => s ++ utf8 "="
    | _ => s
  decodeString encodeURL s


/-! ## `unicode/utf8` -/

/-- A continuation byte `0x80 ≤ b ≤ 0xBF` restricted to the range `lo..hi`
accepted after the given first byte. -/
def inRange (lo hi : Nat) (b : Byte) : Bool := lo ≤ b.val && b.val ≤ hi

/-- Go `utf8.DecodeRune`: the first rune of `p` and its width in bytes;
`(0xFFFD, 1)` for an invalid or truncated encoding, `(0xFFFD, 0)` for empty input. -/
def decodeRune (p : GoString) : Nat × Nat :=
  match p with
  | [] => (0xFFFD, 0)
  | p0 :: t =>
    if p0.val < 0x80 then (p0.val, 1)
    else if p0.val < 0xC2 then (0xFFFD, 1)
    else if p0.val < 0xE0 then
      match t with
      | b1 :: _ =>
        if inRange 0x80 0xBF b1 then (p0.val % 32 * 64 + b1.val % 64, 2) else (0xFFFD, 1)
      | _ => (0xFFFD, 1)
    else if p0.val < 0xF0 then
      match t with
      | b1 :: b2 :: _ =>
        if inRange (if p0.val = 0xE0 then 0xA0 else 0x80) (if p0.val = 0xED then 0x9F else 0xBF) b1
            && inRange 0x80 0xBF b2 then
          (p0.val % 16 * 4096 + b1.val % 64 * 64 + b2.val % 64, 3)
        else (0xFFFD, 1)
      | _ => (0xFFFD, 1)
    else if p0.val < 0xF5 then
      match t with
      | b1 :: b2 :: b3 :: _ =>
        if inRange (if p0.val = 0xF0 then 0x90 else 0x80) (if p0.val = 0xF4 then 0x8F else 0xBF) b1
            && inRange 0x80 0xBF b2 && inRange 0x80 0xBF b3 then
          (p0.val % 8 * 262144 + b1.val % 64 * 4096 + b2.val % 64 * 64 + b3.val % 64, 4)
        else (0xFFFD, 1)
      | _ => (0xFFFD, 1)
    else (0xFFFD, 1)

/-! ## `encoding/json` -/

/-- A JSON value as the decoder sees it: a number keeps its literal text, a
string is already unquoted, an object keeps its members in input order. -/
inductive JValue where
  | null
  | bool (b : Bool)
  | number (text : GoString)
  | string (s : GoString)
  | array (elems : List JValue)
  | object (members : List (GoString × JValue))

/-- JSON white space: space, tab, carriage return, line feed (`isSpace`). -/
def isSpace (c : Byte) : Bool := c = 32 || c = 9 || c = 13 || c = 10

/-- Drops leading JSON white space. -/
def skipWS : GoString → GoString
  | [] => []
  | c :: rest => if isSpace c then skipWS rest else c :: rest

/-- A decimal digit `'0'..'9'`. -/
def isDigit (c : Byte) : Bool := 48 ≤ c.val && c.val ≤ 57

/-- The leading decimal digits of the input and what follows them. -/
def takeDigits : GoString → GoString × GoString
  | [] => ([], [])
  | c :: rest =>
    if isDigit c then ((takeDigits rest).1.cons c, (takeDigits rest).2) else ([], c :: rest)

/-- The value of a hexadecimal digit (`getu4`). -/
def hexVal (c : Byte) : Option Nat :=
  if 48 ≤ c.val ∧ c.val ≤ 57 then some (c.val - 48)
  else if 97 ≤ c.val ∧ c.val ≤ 102 then some (c.val - 97 + 10)
  else if 65 ≤ c.val ∧ c.val ≤ 70 then some (c.val - 65 + 10)
  else none

/-- Four hexadecimal digits and what follows them. -/
def hex4 : GoString → Option (Nat × GoString)
  | a :: b :: c :: d :: rest =>
    match hexVal a, hexVal b, hexVal c, hexVal d with
    | some x, some y, some z, some w => some (((x * 16 + y) * 16 + z) * 16 + w, rest)
    | _, _, _, _ => none
  | _ => none

/-- Go `getu4`: the rune of a `\uXXXX` escape at the start of the input, and
what follows the escape. -/
def getu4 : GoString → Option (Nat × GoString)
  | 92 :: 117 :: rest => hex4 rest
  | _ => none

/-- Go `utf16.DecodeRune` of a surrogate pair, `none` when `r1, r2` is not a
valid pair (Go returns U+FFFD). -/
def utf16DecodeRune (r1 r2 : Nat) : Option Nat :=
  if 0xD800 ≤ r1 ∧ r1 < 0xDC00 ∧ 0xDC00 ≤ r2 ∧ r2 < 0xE000 then
    some ((r1 - 0xD800) * 1024 + (r2 - 0xDC00) + 0x10000)
  else none

/-- What one round of the loop of `unquoteBytes` finds at the start of the
input: the closing quote, a character or escape (the bytes it stands for), or
an invalid literal. In each case with the input that follows. -/
inductive UnquoteStep where
  | done (rest : GoString)
  | emit (bytes : GoString) (rest : GoString)
  | invalid

/-- One round of the scanner's string states together with the loop of
`unquoteBytes`: a control character, a bad escape and the end of the input are
invalid; invalid UTF-8 is replaced by U+FFFD; a `\uXXXX` escape of a surrogate
is combined with a following escape of a low surrogate, and replaced by U+FFFD
when there is none. -/
def unquoteStep : GoString → UnquoteStep
  | [] => .invalid
  | c :: rest =>
    if c = 34 then .done rest
    else if c = 92 then
      match rest with
      | [] => .invalid
      | e :: rest2 =>
        if e = 34 ∨ e = 92 ∨ e = 47 then .emit [e] rest2
        else if e = 98 then .emit [8] rest2
        else if e = 102 then .emit [12] rest2
        else if e = 110 then .emit [10] rest2
        else if e = 114 then .emit [13] rest2
        else if e = 116 then .emit [9] rest2
        else if e = 117 then
          match hex4 rest2 with
          | none => .invalid
          | some (rr, rest3) =>
            if 0xD800 ≤ rr ∧ rr < 0xE000 then
              match getu4 rest3 with
              | some (rr1, rest4) =>
                match utf16DecodeRune rr rr1 with
                | some dec => .emit (encodeRune dec) rest4
                | none => .emit (encodeRune 0xFFFD) rest3
              | none => .emit (encodeRune 0xFFFD) rest3
            else .emit (encodeRune rr) rest3
        else .invalid
    else if c.val < 32 then .invalid
    else if c.val < 128 then .emit [c] rest
    else
      .emit (encodeRune (decodeRune (c :: rest)).1) ((c :: rest).drop (decodeRune (c :: rest)).2)

/-- The body of a JSON string literal, after its opening quote.  Returns the
unquoted string and the input after the closing quote; `none` for an invalid
literal.  One unit of `fuel` is used per character or escape. -/
def unquoteBody : Nat → GoString → GoString → Option (GoString × GoString)
  | 0, _, _ => none
  | fuel + 1, s, acc =>
    match unquoteStep s with
    | .done rest => some (acc, rest)
    | .emit bytes rest => unquoteBody fuel rest (acc ++ bytes)
    | .invalid => none

/-- A JSON string literal after its opening quote. -/
def parseString (s : GoString) : Option (GoString × GoString) :=
  unquoteBody s.length s []

/-- The optional exponent part of a number. -/
def parseExponent (s : GoString) : Option (GoString × GoString) :=
  match s with
  | c :: rest =>
    if c = 101 ∨ c = 69 then
      match rest with
      | sg :: rest2 =>
        if sg = 43 ∨ sg = 45 then
          match takeDigits rest2 with
          | ([], _) => none
          | (ds, r) => some (c :: sg :: ds, r)
        else
          match takeDigits rest with
          | ([], _) => none
          | (ds, r) => some (c :: ds, r)
      | [] => none
    else some ([], s)
  | [] => some ([], [])

/-- The optional fraction and exponent parts of a number. -/
def parseFraction (s : GoString) : Option (GoString × GoString) :=
  match s with
  | c :: rest =>
    if c = 46 then
      match takeDigits rest with
      | ([], _) => none
      | (ds, r) =>
        match parseExponent r with
        | none => none
        | some (e, r2) => some (c :: ds ++ e, r2)
    else parseExponent s
  | [] => some ([], [])

/-- The digits, fraction and exponent of a number, after its optional sign. -/
def parseUnsigned (s : GoString) : Option (GoString × GoString) :=
  match s with
  | c :: rest =>
    if c = 48 then
      match parseFraction rest with
      | none => none
      | some (f, r) => some (c :: f, r)
    else if isDigit c then
      match parseFraction (takeDigits rest).2 with
      | none => none
      | some (f, r) => some (c :: (takeDigits rest).1 ++ f, r)
    else none
  | [] => none

/-- A JSON number: its literal text and what follows it. -/
def parseNumber (s : GoString) : Option (GoString × GoString) :=
  match s with
  | c :: rest =>
    if c = 45 then
      match parseUnsigned rest with
      | none => none
      | some (t, r) => some (c :: t, r)
    else parseUnsigned s
  | [] => none

/-- Strips the bytes of the literal `word` from the front of `s`. -/
def stripWord (word : GoString) (s : GoString) : Option GoString :=
  if word.isPrefixOf s then some (s.drop word.length) else none

mutual
/-- One JSON value at the start of the input (no leading white space) and
what follows it. -/
def parseValue : Nat → GoString → Option (JValue × GoString)
  | 0, _ => none
  | _ + 1, [] => none
  | fuel + 1, c :: rest =>
    if c = 123 then
      match skipWS rest with
      | [] => none
      | d :: rest2 => if d = 125 then some (.object [], rest2) else parseMembers fuel (d :: rest2) []
    else if c = 91 then
      match skipWS rest with
      | [] => none
      | d :: rest2 => if d = 93 then some (.array [], rest2) else parseElems fuel (d :: rest2) []
    else if c = 34 then
      match parseString rest with
      | none => none
      | some (str, r) => some (.string str, r)
    else if c = 116 then (stripWord (utf8 "rue") rest).map (fun r => (.bool true, r))
    else if c = 102 then (stripWord (utf8 "alse") rest).map (fun r => (.bool false, r))
    else if c = 110 then (stripWord (utf8 "ull") rest).map (fun r => (.null, r))
    else
      match parseNumber (c :: rest) with
      | none => none
      | some (t, r) => some (.number t, r)
/-- The members of an object from the first key on, up to the closing brace. -/
def parseMembers : Nat → GoString → List (GoString × JValue) → Option (JValue × GoString)
  | 0, _, _ => none
  | _ + 1, [], _ => none
  | fuel + 1, c :: rest, acc =>
    if c = 34 then
      match parseString rest with
      | none => none
      | some (key, r1) =>
        match skipWS r1 with
        | [] => none
        | colon :: r2 =>
          if colon = 58 then
            match parseValue fuel (skipWS r2) with
            | none => none
            | some (v, r3) =>
              match skipWS r3 with
              | [] => none
              | d :: r4 =>
                if d = 44 then parseMembers fuel (skipWS r4) (acc ++ [(key, v)])
                else if d = 125 then some (.object (acc ++ [(key, v)]), r4)
                else none
          else none
    else none
/-- The elements of an array from the first element on, up to the closing bracket. -/
def parseElems : Nat → GoString → List JValue → Option (JValue × GoString)
  | 0, _, _ => none
  | fuel + 1, s, acc =>
    match parseValue fuel s with
    | none => none
    | some (v, r) =>
      match skipWS r with
      | [] => none
      | d :: r2 =>
        if d = 44 then parseElems fuel (skipWS r2) (acc ++ [v])
        else if d = 93 then some (.array (acc ++ [v]), r2)
        else none
end

/-- The fuel given to `parseValue` for an input: two units per byte suffice,
since every two nested calls consume at least one byte. -/
def parseFuel (s : GoString) : Nat := 2 * s.length + 2

/-- The whole input as one JSON value surrounded by optional white space
(`checkValid` of `json.Unmarshal`); `none` when it is not valid JSON. -/
def parseDocument (data : GoString) : Option JValue :=
  match parseValue (parseFuel data) (skipWS data) with
  | none => none
  | some (v, rest) => if skipWS rest = [] then some v else none

/-- The next JSON value of a stream (`(*json.Decoder).Decode` on a fully
received body): leading white space is skipped and the value is read; what
follows the value is left unread (a byte that may not follow it is reported
only by the next call of `Decode`).  A body with white space only is `io.EOF`. -/
def parseStream (body : GoString) : JValue × Option Error :=
  match skipWS body with
  | [] => (.null, some .eof)
  | s =>
    match parseValue (parseFuel s) s with
    | none => (.null, some .jsonSyntax)
    | some (v, _) => (v, none)

/-- ASCII upper case of a byte. -/
def upperASCII (b : Byte) : Byte := if 97 ≤ b.val ∧ b.val ≤ 122 then byte (b.val - 32) else b

/-- Go `foldName` of an object key, as far as it can equal the folded name of
an ASCII field name: ASCII letters are upper-cased; the two non-ASCII runes
whose simple case folding orbit contains an ASCII letter, U+017F (long s) and
U+212A (Kelvin sign), fold to `S` and `K`; a key with any other non-ASCII rune
folds to no ASCII name (`none`). -/
def foldName : GoString → Option GoString
  | [] => some []
  | [a] => if a.val < 128 then some [upperASCII a] else none
  | [a, b] =>
    if a.val < 128 then (foldName [b]).map (fun r => upperASCII a :: r)
    else if a = 0xC5 ∧ b = 0xBF then some [83]
    else none
  | a :: b :: c :: rest =>
    if a.val < 128 then (foldName (b :: c :: rest)).map (fun r => upperASCII a :: r)
    else if a = 0xC5 ∧ b = 0xBF then (foldName (c :: rest)).map (fun r => (83 : Byte) :: r)
    else if a = 0xE2 ∧ b = 0x84 ∧ c = 0xAA then (foldName rest).map (fun r => (75 : Byte) :: r)
    else none

/-- Whether the object key `key` selects the struct field of JSON name
`name` (an ASCII name): equal, or equal under case folding. -/
def keyMatches (name : String) (key : GoString) : Bool :=
  foldName key = some ((utf8 name).map upperASCII)

/-- Storing a JSON value into a Go `string` field: a string is stored, `null`
leaves the field as it is, anything else is an `UnmarshalTypeError` (the
flag) and leaves the field as it is. -/
def storeString (v : JValue) (old : GoString) : GoString × Bool :=
  match v with
  | .string s => (s, false)
  | .null => (old, false)
  | _ => (old, true)

/-- The value of a string of decimal digits. -/
def digitsToNat (ds : GoString) : Nat := ds.foldl (fun n d => 10 * n + (d.val - 48)) 0

/-- Go `strconv.ParseInt(s, 10, 64)` on the text of a JSON number. -/
def parseInt64 (text : GoString) : Option Int :=
  let neg := text.head? = some 45
  let ds := if neg then text.drop 1 else text
  if ds ≠ [] ∧ ds.all isDigit then
    let v : Int := if neg then - (digitsToNat ds : Int) else (digitsToNat ds : Int)
    if -9223372036854775808 ≤ v ∧ v ≤ 9223372036854775807 then some v else none
  else none

/-- Storing a JSON value into a Go `int64` field (also `int`, taken as 64 bits
wide): an integer literal in range is stored, `null` leaves the field as it is,
anything else is an `UnmarshalTypeError`. -/
def storeInt (v : JValue) (old : Int) : Int × Bool :=
  match v with
  | .number t =>
    match parseInt64 t with
    | some n => (n, false)
    | none => (old, true)
  | .null => (old, false)
  | _ => (old, true)

/-- Decoding the members of an object into a struct, member by member in
input order; the flag records whether some member raised a type error. -/
def storeMembers {α : Type} (setField : α → GoString → JValue → α × Bool) :
    List (GoString × JValue) → α → Bool → α × Bool
  | [], dst, bad => (dst, bad)
  | (k, v) :: ms, dst, bad =>
    storeMembers setField ms (setField dst k v).1 (bad || (setField dst k v).2)

/-- Decoding a JSON value into a struct (`d.value` on a struct): an object is
decoded member by member, `null` changes nothing, any other value is an
`UnmarshalTypeError`.  The first type error is returned after the whole value
has been decoded. -/
def storeStruct {α : Type} (setField : α → GoString → JValue → α × Bool) (v : JValue)
    (dst : α) : α × Option Error :=
  match v with
  | .object ms =>
    ((storeMembers setField ms dst false).1,
      if (storeMembers setField ms dst false).2 then some .jsonUnmarshalType else none)
  | .null => (dst, none)
  | _ => (dst, some .jsonUnmarshalType)

/-- Go `json.Unmarshal(data, &dst)` for a struct `dst`: the input is first
checked to be one valid JSON value, then decoded. -/
def jsonUnmarshal {α : Type} (setField : α → GoString → JValue → α × Bool) (data : GoString)
    (dst : α) : α × Option Error :=
  match parseDocument data with
  | none => (dst, some .jsonSyntax)
  | some v => storeStruct setField v dst

/-- Go `json.NewDecoder(body).Decode(&dst)` for a struct `dst`. -/
def jsonDecode {α : Type} (setField : α → GoString → JValue → α × Bool) (body : GoString)
    (dst : α) : α × Option Error :=
  match parseStream body with
  | (_, some e) => (dst, some e)
  | (v, none) => storeStruct setField v dst

/-! ## `main.go`: data types -/

/-- Struct `Token` (`type Token struct`): an OAuth token response. -/
structure Token where
  AccessToken : GoString
  TokenType : GoString
  ExpiresIn : Int
  IdToken : GoString
  deriving DecidableEq, Repr

/-- Struct `ClaimSet` (`type ClaimSet struct`): an IdToken response. -/
structure ClaimSet where
  Sub : GoString
  deriving DecidableEq, Repr

/-- Struct `ValidationResponse` (`type ValidationResponse struct`). -/
structure ValidationResponse where
  IssuedTo : GoString
  Audience : GoString
  UserId : GoString
  Scope : GoString
  ExpiresIn : Int
  AccessType : GoString
  deriving DecidableEq, Repr

/-- Struct `Message` (`type Message struct`). -/
structure Message where
  Identifier : GoString
  Text : GoString
  Time : Int
  deriving DecidableEq, Repr

/-- The zero value of `Token`. -/
def Token.zero : Token := { AccessToken := [], TokenType := [], ExpiresIn := 0, IdToken := [] }

/-- The zero value of `ClaimSet`. -/
def ClaimSet.zero : ClaimSet := { Sub := [] }

/-- The zero value of `ValidationResponse`. -/
def ValidationResponse.zero : ValidationResponse :=
  { IssuedTo := [], Audience := [], UserId := [], Scope := [], ExpiresIn := 0, AccessType := [] }

/-- The zero value of `Message`. -/
def Message.zero : Message := { Identifier := [], Text := [], Time := 0 }

/-- Field table of `Token` (JSON names from the struct tags). -/
def Token.setField (t : Token) (key : GoString) (v : JValue) : Token × Bool :=
  if keyMatches "access_token" key then
    ({ t with AccessToken := (storeString v t.AccessToken).1 }, (storeString v t.AccessToken).2)
  else if keyMatches "token_type" key then
    ({ t with TokenType := (storeString v t.TokenType).1 }, (storeString v t.TokenType).2)
  else if keyMatches "expires_in" key then
    ({ t with ExpiresIn := (storeInt v t.ExpiresIn).1 }, (storeInt v t.ExpiresIn).2)
  else if keyMatches "id_token" key then
    ({ t with IdToken := (storeString v t.IdToken).1 }, (storeString v t.IdToken).2)
  else (t, false)

/-- Field table of `ClaimSet` (the field name is the JSON name). -/
def ClaimSet.setField (set : ClaimSet) (key : GoString) (v : JValue) : ClaimSet × Bool :=
  if keyMatches "Sub" key then
    ({ set with Sub := (storeString v set.Sub).1 }, (storeString v set.Sub).2)
  else (set, false)

/-- Field table of `ValidationResponse` (JSON names from the struct tags). -/
def ValidationResponse.setField (r : ValidationResponse) (key : GoString) (v : JValue) :
    ValidationResponse × Bool :=
  if keyMatches "issued_to" key then
    ({ r with IssuedTo := (storeString v r.IssuedTo).1 }, (storeString v r.IssuedTo).2)
  else if keyMatches "audience" key then
    ({ r with Audience := (storeString v r.Audience).1 }, (storeString v r.Audience).2)
  else if keyMatches "user_id" key then
    ({ r with UserId := (storeString v r.UserId).1 }, (storeString v r.UserId).2)
  else if keyMatches "scope" key then
    ({ r with Scope := (storeString v r.Scope).1 }, (storeString v r.Scope).2)
  else if keyMatches "expires_in" key then
    ({ r with ExpiresIn := (storeInt v r.ExpiresIn).1 }, (storeInt v r.ExpiresIn).2)
  else if keyMatches "access_type" key then
    ({ r with AccessType := (storeString v r.AccessType).1 }, (storeString v r.AccessType).2)
  else (r, false)

/-- Field table of `Message` (the field names are the JSON names). -/
def Message.setField (m : Message) (key : GoString) (v : JValue) : Message × Bool :=
  if keyMatches "Identifier" key then
    ({ m with Identifier := (storeString v m.Identifier).1 }, (storeString v m.Identifier).2)
  else if keyMatches "Text" key then
    ({ m with Text := (storeString v m.Text).1 }, (storeString v m.Text).2)
  else if keyMatches "Time" key then
    ({ m with Time := (storeInt v m.Time).1 }, (storeInt v m.Time).2)
  else (m, false)

/-! ## `main.go`: `decodeIdToken` -/

/-- Function `decodeIdToken` of `main.go`: takes an ID token and decodes it to fetch the
Google+ ID within.  The middle segment is decoded; nothing is verified. -/
def decodeIdToken (idToken : GoString) : GoString × Option Error :=
  let set : ClaimSet := ClaimSet.zero
  if idToken ≠ [] then
    let parts := stringsSplit 46 idToken
    if parts.length < 2 then ([], some (.new "Malformed ID token"))
    else
      match base64Decode (parts.getD 1 []) with
      | (_, some err) => ([], some (.errorf "Malformed ID token: %v" err))
      | (b, none) =>
        match jsonUnmarshal ClaimSet.setField b set with
        | (_, some err) => ([], some (.errorf "Malformed ID token: %v" err))
        | (set, none) => (set.Sub, none)
  else (set.Sub, none)


/-! ## Specification-side encoders used to state the claims -/

/-- The hexadecimal digit (lower case) of a value below 16. -/
def hexDigit (n : Nat) : Byte := if n < 10 then byte (48 + n) else byte (87 + n)

/-- The JSON escape of one character inside a string literal: `\"` and `\\`
for quote and backslash, `\u00XX` for a control character, the UTF-8 encoding
of the character otherwise. -/
def jsonEscapeChar (c : Char) : GoString :=
  if c.toNat = 34 then [92, 34]
  else if c.toNat = 92 then [92, 92]
  else if c.toNat < 32 then [92, 117, 48, 48, hexDigit (c.toNat / 16), hexDigit (c.toNat % 16)]
  else encodeRune c.toNat

/-- The body of the JSON string literal that denotes the string `X`. -/
def jsonQuote (X : String) : GoString := X.toList.flatMap jsonEscapeChar

/-- The JSON text `{"Sub": "X"}` for the string `X`. -/
def claimSetJSON (X : String) : GoString :=
  utf8 "\x7b\"Sub\": \"" ++ jsonQuote X ++ utf8 "\"\x7d"

/-- No carriage return and no line feed occurs in `s`. -/
def noNewline (s : GoString) : Prop := ∀ c ∈ s, c ≠ 10 ∧ c ≠ 13

/-- The padding step of `base64Decode`: the string that it passes to
`DecodeString`. -/
def repad (s : GoString) : GoString :=
  match s.length % 4 with
  | 2 => s ++ utf8 "=="
  | 3 => s ++ utf8 "="
  | _ => s


/-! ## `net/url`: `QueryEscape` -/

/-- The upper-case hexadecimal digit of a value below 16 (`upperhex`). -/
def upperHex (n : Nat) : Byte := if n < 10 then byte (48 + n) else byte (55 + n)

/-- Whether `url.QueryEscape` leaves a byte as it is: letters, digits and
`-`, `_`, `.`, `~`. -/
def isUnreserved (c : Byte) : Bool :=
  (97 ≤ c.val && c.val ≤ 122) || (65 ≤ c.val && c.val ≤ 90) || (48 ≤ c.val && c.val ≤ 57) ||
    c = 45 || c = 95 || c = 46 || c = 126

/-- Go `url.QueryEscape`. -/
def queryEscape (s : GoString) : GoString :=
  s.flatMap (fun c =>
    if isUnreserved c then [c]
    else if c = 32 then [43]
    else [37, upperHex (c.val / 16), upperHex (c.val % 16)])

/-! ## `net/http`: the response writer -/

/-- The state of an `http.ResponseWriter`: the header map, the status code
once the header has been written, and the body written so far. -/
structure ResponseWriter where
  header : List (String × String)
  status : Option Nat
  body : GoString
  deriving DecidableEq, Repr

/-- A response writer on which nothing has been done yet. -/
def ResponseWriter.new : ResponseWriter := { header := [], status := none, body := [] }

/-- The call `w.Header().Set(key, value)`. -/
def ResponseWriter.setHeader (w : ResponseWriter) (key value : String) : ResponseWriter :=
  { w with header := (key, value) :: w.header.filter (fun p => p.1 ≠ key) }

/-- The call `w.WriteHeader(code)`: only the first call sets the status. -/
def ResponseWriter.writeHeader (w : ResponseWriter) (code : Nat) : ResponseWriter :=
  match w.status with
  | some _ => w
  | none => { w with status := some code }

/-- The call `w.Write(p)` (`fmt.Fprint(w, ...)`): writes the header with status
200 if it has not been written, then appends to the body. -/
def ResponseWriter.write (w : ResponseWriter) (p : GoString) : ResponseWriter :=
  { w.writeHeader 200 with body := w.body ++ p }

/-- Go `http.Error(w, error, code)`. -/
def httpError (w : ResponseWriter) (error : String) (code : Nat) : ResponseWriter :=
  (((w.setHeader "Content-Type" "text/plain; charset=utf-8").setHeader
    "X-Content-Type-Options" "nosniff").writeHeader code).write (utf8 error ++ utf8 "\n")

/-- Go `http.NotFound(w, r)`. -/
def httpNotFound (w : ResponseWriter) : ResponseWriter := httpError w "404 page not found" 404

/-! ## `gorilla/sessions` -/

/-- A value of type `interface{}` held in a session: `nil` or a string (the
program stores nothing else). -/
abbrev Value := Option GoString

/-- A `sessions.Session`: its `Values` map, as an association list. -/
structure Session where
  Values : List (String × Value)
  deriving DecidableEq, Repr

/-- The map read `session.Values[key]`: `nil` for a missing key. -/
def Session.get (s : Session) (key : String) : Value :=
  match s.Values.find? (fun p => p.1 = key) with
  | some p => p.2
  | none => none

/-- Assignment in an association list. -/
def setValue : List (String × Value) → String → Value → List (String × Value)
  | [], key, v => [(key, v)]
  | (k, x) :: rest, key, v => if k = key then (key, v) :: rest else (k, x) :: setValue rest key v

/-- The map assignment `session.Values[key] = v`. -/
def Session.set (s : Session) (key : String) (v : Value) : Session :=
  { Values := setValue s.Values key v }

/-! ## `appengine/datastore` -/

/-- A `datastore.Key` without parent: kind, string ID, integer ID. -/
structure Key where
  kind : String
  stringID : GoString
  intID : Int
  deriving DecidableEq, Repr

/-- Go `datastore.NewKey(c, kind, stringID, intID, nil)`. -/
def NewKey (kind : String) (stringID : GoString) (intID : Int) : Key :=
  { kind := kind, stringID := stringID, intID := intID }

/-- Go `(*Key).Incomplete`: the key has neither a string ID nor an integer ID. -/
def Key.Incomplete (k : Key) : Bool := k.stringID = [] && k.intID = 0

/-- The entities held by the datastore, the newest first. -/
abbrev Datastore := List (Key × Message)

/-- The entity stored under a key. -/
def Datastore.lookup (ds : Datastore) (k : Key) : Option Message :=
  match ds.find? (fun p => p.1 = k) with
  | some p => some p.2
  | none => none

/-- Storing an entity under a key, replacing the one stored there. -/
def Datastore.insert (ds : Datastore) (k : Key) (m : Message) : Datastore :=
  (k, m) :: ds.filter (fun p => p.1 ≠ k)

/-- The text of `datastore.ErrNoSuchEntity`. -/
def ErrNoSuchEntity : String := "datastore: no such entity"

/-! ## The outside world -/

/-- The Google API project information: the constants `clientID`,
`clientSecret`, `iosClientID` and `applicationName`, whose declarations are not
in `main.go` (the section "Update your Google API project information here" is
empty). -/
structure Config where
  clientID : GoString
  clientSecret : GoString
  iosClientID : GoString
  applicationName : GoString

/-- A call to an external service. -/
inductive Effect where
  /-- Go `client.PostForm(addr, values)` -/
  | postForm (addr : GoString) (values : List (String × GoString))
  /-- Go `client.Get(url)` -/
  | get (url : GoString)
  /-- Go `datastore.Get(c, key, &m)` -/
  | datastoreGet (key : Key)
  /-- Go `datastore.Put(c, key, &m)` -/
  | datastorePut (key : Key) (m : Message)
  /-- Go `session.Save(r, w)` with the values saved -/
  | sessionSave (values : List (String × Value))
  deriving DecidableEq, Repr

/-- What one request reads from outside the program. -/
structure Env where
  /-- Go `r.URL.Path` -/
  urlPath : GoString
  /-- Go `r.FormValue(key)` -/
  formValue : String → GoString
  /-- Go `ioutil.ReadAll(r.Body)` -/
  body : GoString × Option Error
  /-- Go `r.Header.Get("Authorization")` -/
  authorization : GoString
  /-- Go `store.Get(r, "sessionName")`: always a session, possibly with an error -/
  session : Session × Option Error
  /-- Go `client.PostForm(addr, values)`: the body of the response, or the error -/
  postForm : GoString → List (String × GoString) → Except Error GoString
  /-- Go `client.Get(url)`: the body of the response, or the error -/
  get : GoString → Except Error GoString
  /-- the contents of a buffer of the given length after `rand.Read` -/
  random : Nat → List Byte
  /-- Go `time.Now().Unix()` -/
  now : Int
  /-- Go `indexTemplate.Execute(w, data)`: the output written to `w` and the error -/
  executeTemplate : GoString → GoString → GoString → GoString × Option Error
  /-- the error text with which the datastore service fails a `Get`, if it does -/
  datastoreGetError : Option String
  /-- the error text with which the datastore service fails a `Put`, if it does -/
  datastorePutError : Option String
  /-- the integer ID the datastore allocates to an entity put under an incomplete key -/
  allocateID : Int
  /-- Go `json.Marshal(m)` (the encoder is a parameter): the JSON text, or the error text -/
  marshal : Message → GoString × Option String

/-- The state outside the program that a handler changes: the datastore and
the trace of calls to external services, the oldest first. -/
structure World where
  ds : Datastore
  trace : List Effect
  deriving DecidableEq, Repr

/-- Appends a call to the trace. -/
def World.record (σ : World) (e : Effect) : World := { σ with trace := σ.trace ++ [e] }

/-- Go `datastore.Get(c, key, &m)`: the read is sent to the service for the key
as it is (also for an incomplete key) and the service's answer is returned:
the entity stored under the key, `ErrNoSuchEntity` when there is none, or the
error with which the service fails. -/
def datastoreGet (env : Env) (σ : World) (k : Key) (m : Message) :
    (Message × Option String) × World :=
  let σ := σ.record (.datastoreGet k)
  match env.datastoreGetError with
  | some e => ((m, some e), σ)
  | none =>
    match σ.ds.lookup k with
    | none => ((m, some ErrNoSuchEntity), σ)
    | some stored => ((stored, none), σ)

/-- Go `datastore.Put(c, key, &m)`: stores the entity under the key, under a
newly allocated integer ID when the key is incomplete; an error when the
service fails. -/
def datastorePut (env : Env) (σ : World) (k : Key) (m : Message) : Option String × World :=
  let σ := σ.record (.datastorePut k m)
  match env.datastorePutError with
  | some e => (some e, σ)
  | none =>
    let k := if k.Incomplete then { k with intID := env.allocateID } else k
    (none, { σ with ds := σ.ds.insert k m })

/-- The call `session.Save(r, w)`. -/
def sessionSave (session : Session) (σ : World) : World := σ.record (.sessionSave session.Values)

/-- What a handler leaves behind: the response writer, the session object it
worked on (when it fetched one), the outside state, and whether it panicked. -/
structure Outcome where
  w : ResponseWriter
  session : Option Session
  world : World
  panicked : Bool
  deriving DecidableEq, Repr

/-! ## `main.go`: the functions -/

/-- Function `serveError` of `main.go` (the error is only logged). -/
def serveError (w : ResponseWriter) (_err : Error) : ResponseWriter :=
  ((w.writeHeader 500).setHeader "Content-Type" "text/plain; charset=utf-8").write
    (utf8 "Internal Server Error")

/-- Function `serve404` of `main.go`. -/
def serve404 (w : ResponseWriter) : ResponseWriter :=
  ((w.writeHeader 404).setHeader "Content-Type" "text/plain; charset=utf-8").write
    (utf8 "404: Not Found")

/-- The URL of the token introspection endpoint, up to the token. -/
def tokeninfoURL : GoString :=
  utf8 "https://www.googleapis.com/oauth2/v1/tokeninfo?access_token="

/-- The URL of the token endpoint. -/
def tokenURL : GoString := utf8 "https://accounts.google.com/o/oauth2/token"

/-- The URL of the revocation endpoint, up to the token. -/
def revokeURL : GoString := utf8 "https://accounts.google.com/o/oauth2/revoke?token="

/-- Function `validateToken` of `main.go`: validate a token against the token
introspection endpoint and check its audience. -/
def validateToken (cfg : Config) (env : Env) (token : GoString) (σ : World) :
    (GoString × Option Error) × World :=
  let url := tokeninfoURL ++ token
  let σ := σ.record (.get url)
  match env.get url with
  | .error err => (([], some (.errorf "Failed to validate token with error: %v" err)), σ)
  | .ok body =>
    let vr : ValidationResponse := ValidationResponse.zero
    match jsonDecode ValidationResponse.setField body vr with
    | (_, some err) => (([], some (.errorf "Decoding validation response: %v" err)), σ)
    | (vr, none) =>
      if vr.Audience ≠ cfg.iosClientID then (([], some (.new "Validating token failed!")), σ)
      else ((vr.UserId, none), σ)

/-- The form values `url.Values{...}` that `exchange` posts. -/
def exchangeValues (cfg : Config) (code : GoString) : List (String × GoString) :=
  [("Content-Type", utf8 "application/x-www-form-urlencoded"),
   ("code", code),
   ("client_id", cfg.clientID),
   ("client_secret", cfg.clientSecret),
   ("redirect_uri", utf8 "postmessage"),
   ("grant_type", utf8 "authorization_code")]

/-- Function `exchange` of `main.go`: takes an authentication code and exchanges it with
the OAuth endpoint for a bearer token and a Google+ ID token. -/
def exchange (cfg : Config) (env : Env) (code : GoString) (σ : World) :
    (GoString × GoString × Option Error) × World :=
  let addr := tokenURL
  let values := exchangeValues cfg code
  let σ := σ.record (.postForm addr values)
  match env.postForm addr values with
  | .error err => (([], [], some (.errorf "Exchanging code: %v" err)), σ)
  | .ok body =>
    let token : Token := Token.zero
    match jsonDecode Token.setField body token with
    | (_, some err) => (([], [], some (.errorf "Decoding access token: %v" err)), σ)
    | (token, none) => ((token.AccessToken, token.IdToken, none), σ)

/-- Function `randomString` of `main.go`: a buffer of `length` random bytes in standard
base64. -/
def randomString (env : Env) (length : Nat) : GoString :=
  let b := (env.random length ++ List.replicate length 0).take length
  encodeToString encodeStd b

/-- Function `index` of `main.go`: sets up a session for the current user and serves the
index page. -/
def index (cfg : Config) (env : Env) (σ : World) : Outcome :=
  let w := ResponseWriter.new
  if env.urlPath ≠ utf8 "/" then
    { w := httpNotFound w, session := none, world := σ, panicked := false }
  else
    -- the session fetch error is ignored
    let session := env.session.1
    let state := randomString env 64
    let session := session.set "state" (some state)
    let σ := sessionSave session σ
    match session.get "state" with
    | none => { w := w, session := some session, world := σ, panicked := true }
    | some st =>
      let stateURL := queryEscape st
      match env.executeTemplate cfg.applicationName cfg.clientID stateURL with
      | (out, some err) =>
        let w := if out = [] then w else w.write out
        { w := serveError w err, session := some session, world := σ, panicked := false }
      | (out, none) =>
        let w := if out = [] then w else w.write out
        { w := w, session := some session, world := σ, panicked := false }

/-- Function `connect` of `main.go`: exchanges the one-time authorization code for a
token and stores the token in the session. -/
def connect (cfg : Config) (env : Env) (σ : World) : Outcome :=
  let w := ResponseWriter.new
  match env.session with
  | (session, some _) => { w := w, session := some session, world := σ, panicked := false }
  | (session, none) =>
    match session.get "state" with
    | none => { w := w, session := some session, world := σ, panicked := true }
    | some st =>
      if env.formValue "state" ≠ st then
        { w := serveError w (.new "Invalid state parameter"), session := some session,
          world := σ, panicked := false }
      else
        match env.body with
        | (_, some err) =>
          { w := serveError w err, session := some session, world := σ, panicked := false }
        | (x, none) =>
          let code := x
          match exchange cfg env code σ with
          | ((_, _, some err), σ) =>
            { w := serveError w err, session := some session, world := σ, panicked := false }
          | ((accessToken, idToken, none), σ) =>
            match decodeIdToken idToken with
            | (_, some err) =>
              { w := serveError w err, session := some session, world := σ, panicked := false }
            | (gplusID, none) =>
              -- check if the user is already connected
              let storedToken := session.get "accessToken"
              let storedGPlusID := session.get "gplusID"
              if storedToken ≠ none ∧ storedGPlusID = some gplusID then
                { w := w.write (utf8 "Connected"), session := some session, world := σ,
                  panicked := false }
              else
                -- store the access token in the session for later use
                let session := session.set "accessToken" (some accessToken)
                let session := session.set "gplusID" (some gplusID)
                { w := w, session := some session, world := sessionSave session σ,
                  panicked := false }

/-- Function `disconnect` of `main.go`: revokes the current user's token and resets
their session. -/
def disconnect (_cfg : Config) (env : Env) (σ : World) : Outcome :=
  let w := ResponseWriter.new
  match env.session with
  | (session, some err) =>
    { w := serveError w err, session := some session, world := σ, panicked := false }
  | (session, none) =>
    match session.get "accessToken" with
    | none =>
      { w := serveError w (.new "Current user not connected"), session := some session,
        world := σ, panicked := false }
    | some token =>
      let url := revokeURL ++ token
      let σ := σ.record (.get url)
      match env.get url with
      | .error err =>
        { w := serveError w err, session := some session, world := σ, panicked := false }
      | .ok _ =>
        -- reset the user's session
        let session := session.set "accessToken" none
        { w := w, session := some session, world := sessionSave session σ, panicked := false }

/-- Function `paste` of `main.go`. -/
def paste (cfg : Config) (env : Env) (σ : World) : Outcome :=
  let w := ResponseWriter.new
  let authToken := env.authorization
  match validateToken cfg env authToken σ with
  | ((userId, err), σ) =>
    -- there is no `return` after this `serveError`
    let w := match err with
      | some e => serveError w e
      | none => w
    let m : Message := Message.zero
    let k := NewKey "copies" userId 0
    match datastoreGet env σ k m with
    | ((_, some e), σ) =>
      { w := httpError w e 500, session := none, world := σ, panicked := false }
    | ((m, none), σ) =>
      -- there is no `return` after the `http.Error` of a failed `json.Marshal`
      let w := match (env.marshal m).2 with
        | some e => httpError w e 500
        | none => w
      let w := w.setHeader "Content-Type" "text/json; charset=utf-8"
      { w := w.write (env.marshal m).1, session := none, world := σ, panicked := false }

/-- Function `copyForm` of `main.go`. -/
def copyForm (_cfg : Config) (env : Env) (σ : World) : Outcome :=
  let w := ResponseWriter.new
  match env.session with
  | (session, some err) =>
    { w := serveError w err, session := some session, world := σ, panicked := false }
  | (session, none) =>
    match session.get "gplusID" with
    | none => { w := w, session := some session, world := σ, panicked := true }
    | some storedGPlusID =>
      let m : Message :=
        { Identifier := storedGPlusID, Text := env.formValue "pasta", Time := env.now }
      -- store the new post (no history yet, just store the latest thing)
      let k := NewKey "copies" m.Identifier 0
      match datastorePut env σ k m with
      | (some e, σ) =>
        { w := httpError w e 500, session := some session, world := σ, panicked := false }
      | (none, σ) =>
        let w := w.setHeader "Content-Type" "text/json; charset=utf-8"
        { w := w.write (utf8 "Check your phone!"), session := some session, world := σ,
          panicked := false }

/-- Function `postCopy` of `main.go`. -/
def postCopy (_cfg : Config) (env : Env) (σ : World) : Outcome :=
  let w := ResponseWriter.new
  -- the error of reading the body is not handled
  let p := env.body.1
  let m : Message := { Message.zero with Time := env.now }
  -- the error of `json.Unmarshal` is not looked at
  let m := (jsonUnmarshal Message.setField p m).1
  -- store the new post (no history yet, just store the latest thing)
  let k := NewKey "copies" m.Identifier 0
  match datastorePut env σ k m with
  | (some e, σ) => { w := httpError w e 500, session := none, world := σ, panicked := false }
  | (none, σ) =>
    { w := w.write (utf8 "\x7b\"success\": true\x7d"), session := none, world := σ, panicked := false }


/-! ## Reference values used to state the claims -/

/-- The response that `serveError` produces on a fresh response writer:
status 500, body "Internal Server Error". -/
def serveErrorResponse : ResponseWriter :=
  { header := [("Content-Type", "text/plain; charset=utf-8")], status := some 500,
    body := utf8 "Internal Server Error" }

/-- The response that `http.Error(w, text, 500)` produces on a fresh response
writer: status 500, body the text followed by a newline. -/
def errorTextResponse (text : String) : ResponseWriter :=
  { header := [("X-Content-Type-Options", "nosniff"),
      ("Content-Type", "text/plain; charset=utf-8")],
    status := some 500, body := utf8 text ++ utf8 "\n" }

/-- Whether an effect is a code exchange (a POST to the token endpoint). -/
def Effect.isPostForm : Effect → Bool
  | .postForm _ _ => true
  | _ => false

/-- Whether an effect is a datastore read. -/
def Effect.isDatastoreGet : Effect → Bool
  | .datastoreGet _ => true
  | _ => false

/-- A configuration for the concrete examples. -/
def exampleConfig : Config :=
  { clientID := utf8 "web-client", clientSecret := utf8 "secret", iosClientID := utf8 "ios-client",
    applicationName := utf8 "Copy Pasta" }

/-- A request environment for the concrete examples: no cookie (an empty
session), empty body, every external fetch fails, the datastore works. -/
def exampleEnv : Env :=
  { urlPath := utf8 "/"
    formValue := fun _ => []
    body := ([], none)
    authorization := utf8 "bearer"
    session := ({ Values := [] }, none)
    postForm := fun _ _ => .error (.external "urlfetch: fetch failed")
    get := fun _ => .error (.external "urlfetch: fetch failed")
    random := fun n => List.replicate n 7
    now := 1380000000
    executeTemplate := fun _ _ stateURL => (stateURL, none)
    datastoreGetError := none
    datastorePutError := none
    allocateID := 1
    marshal := fun m => (m.Identifier ++ utf8 "|" ++ m.Text, none) }

/-- An empty world. -/
def emptyWorld : World := { ds := [], trace := [] }

/-- A `/paste` request whose bearer token the introspection endpoint accepts
for the audience `ios-client` and the user id `u1`. -/
def pasteEnv : Env :=
  { exampleEnv with
    get := fun _ => .ok (utf8 "\x7b\"audience\": \"ios-client\", \"user_id\": \"u1\", \"expires_in\": 3600\x7d") }

/-- A `/copy` request with a record for `u1`. -/
def copyEnv : Env :=
  { exampleEnv with body := (utf8 "\x7b\"Identifier\": \"u1\", \"Text\": \"hello\"\x7d", none) }

/-- A `/copyForm` request from a session connected as `u1`. -/
def copyFormEnv : Env :=
  { exampleEnv with
    session := ({ Values := [("gplusID", some (utf8 "u1"))] }, none)
    formValue := fun _ => utf8 "hello" }

/-- A datastore holding an older record of `u1` and a record of `u2`. -/
def exampleWorld : World :=
  { ds := [(NewKey "copies" (utf8 "u1") 0, { Identifier := utf8 "u1", Text := utf8 "old", Time := 1 }),
      (NewKey "copies" (utf8 "u2") 0, { Identifier := utf8 "u2", Text := utf8 "other", Time := 2 })],
    trace := [] }

/-- The body of a token endpoint response with the given access token, whose
ID token `hdr.eyJTdWIiOiAidTEifQ.sig` carries the identity `u1`. -/
def exampleTokenResponse (accessToken : String) : GoString :=
  utf8 "\x7b\"access_token\": \"" ++ utf8 accessToken ++
    utf8 "\", \"token_type\": \"Bearer\", \"expires_in\": 3600, \"id_token\": \"hdr.eyJTdWIiOiAidTEifQ.sig\"\x7d"

/-- A `/connect` request with state `s1` and code `c1`, on the given session;
the token endpoint answers with the given access token. -/
def connectEnv (session : Session) (accessToken : String) : Env :=
  { exampleEnv with
    session := (session, none)
    formValue := fun _ => utf8 "s1"
    body := (utf8 "c1", none)
    postForm := fun _ _ => .ok (exampleTokenResponse accessToken) }

/-- The request `env` when fetching its session fails. -/
def withSessionError (env : Env) : Env :=
  { env with session := (env.session.1, some (.external "securecookie: the value is not valid")) }

/-- The request `env` when the datastore service fails every `Put`. -/
def withPutError (env : Env) : Env :=
  { env with datastorePutError := some "datastore: the service is unavailable" }

/-- A session that holds the state token `s1`. -/
def stateSession : Session := { Values := [("state", some (utf8 "s1"))] }

/-- A session that holds the access token `first`. -/
def tokenSession : Session := { Values := [("accessToken", some (utf8 "first"))] }

/-- The session after `connect` has stored an access token and an identity in
it: `session.Values["accessToken"] = accessToken` followed by
`session.Values["gplusID"] = gplusID`. -/
def Session.connected (s : Session) (accessToken gplusID : GoString) : Session :=
  (s.set "accessToken" (some accessToken)).set "gplusID" (some gplusID)

/-- A session that holds the state token `s1` and is connected as `u1` with
the access token `zero`. -/
def zeroSession : Session :=
  { Values := [("state", some (utf8 "s1")), ("accessToken", some (utf8 "zero")),
      ("gplusID", some (utf8 "u1"))] }


/-! ## Theorems: base64 -/

theorem decodeMap_encodeChar_fin :
    ∀ i : Fin 64, decodeMap encodeURL (encodeChar encodeURL i.val) = some i.val := by
  decide

theorem decodeMap_encodeChar (i : Nat) (h : i < 64) :
    decodeMap encodeURL (encodeChar encodeURL i) = some i :=
  decodeMap_encodeChar_fin ⟨i, h⟩

theorem decodeMap_pad : decodeMap encodeURL 61 = none := by decide

theorem encodeChar_ne_pad_fin : ∀ i : Fin 64, encodeChar encodeURL i.val ≠ 61 := by decide

theorem encodeChar_ne_pad (i : Nat) (h : i < 64) : encodeChar encodeURL i ≠ 61 :=
  encodeChar_ne_pad_fin ⟨i, h⟩

theorem byte_val (n : Nat) : (byte n).val = n % 256 := rfl

theorem byte_eq_self (a : Byte) (n : Nat) (h : n % 256 = a.val) : byte n = a :=
  Fin.ext h

theorem quantum_four (a b c : Byte) :
    quantumBytes [a.val / 4, a.val % 4 * 16 + b.val / 16, b.val % 16 * 4 + c.val / 64,
      c.val % 64] 4 = [a, b, c] := by
  have ha := a.isLt
  have hb := b.isLt
  have hc := c.isLt
  simp only [quantumBytes, List.getD_cons_zero, List.getD_cons_succ, List.take]
  congr 1
  · apply byte_eq_self; omega
  congr 1
  · apply byte_eq_self; omega
  congr 1
  · apply byte_eq_self; omega

theorem quantum_three (a b : Byte) :
    quantumBytes [a.val / 4, a.val % 4 * 16 + b.val / 16, b.val % 16 * 4] 3 = [a, b] := by
  have ha := a.isLt
  have hb := b.isLt
  simp [quantumBytes, List.take]
  constructor
  · apply byte_eq_self; omega
  · apply byte_eq_self; omega

theorem quantum_two (a : Byte) :
    quantumBytes [a.val / 4, a.val % 4 * 16] 2 = [a] := by
  have ha := a.isLt
  simp [quantumBytes, List.take]
  apply byte_eq_self; omega

theorem decodeLoop_encode (n : Nat) (b : List Byte) :
    ∀ (si : Nat) (out : List Byte),
      decodeLoop encodeURL n (encodeToString encodeURL b) si [] out = (out ++ b, none) := by
  induction b using encodeToString.induct encodeURL with
  | case1 => intro si out; simp [encodeToString, decodeLoop]
  | case2 a =>
    intro si out
    have ha := a.isLt
    have h0 := decodeMap_encodeChar (a.val / 4) (by omega)
    have h1 := decodeMap_encodeChar (a.val % 4 * 16) (by omega)
    simp [encodeToString, decodeLoop, h0, h1, decodeMap_pad, skipNewlines, quantum_two]
  | case3 a b =>
    intro si out
    have ha := a.isLt
    have hb := b.isLt
    have h0 := decodeMap_encodeChar (a.val / 4) (by omega)
    have h1 := decodeMap_encodeChar (a.val % 4 * 16 + b.val / 16) (by omega)
    have h2 := decodeMap_encodeChar (b.val % 16 * 4) (by omega)
    simp [encodeToString, decodeLoop, h0, h1, h2, decodeMap_pad, skipNewlines, quantum_three]
  | case4 a b c rest ih =>
    intro si out
    have ha := a.isLt
    have hb := b.isLt
    have hc := c.isLt
    have h0 := decodeMap_encodeChar (a.val / 4) (by omega)
    have h1 := decodeMap_encodeChar (a.val % 4 * 16 + b.val / 16) (by omega)
    have h2 := decodeMap_encodeChar (b.val % 16 * 4 + c.val / 64) (by omega)
    have h3 := decodeMap_encodeChar (c.val % 64) (by omega)
    simp [encodeToString, decodeLoop, h0, h1, h2, h3, quantum_four, ih]

theorem encodeToString_length (b : List Byte) :
    (encodeToString encodeURL b).length % 4 = 0 := by
  induction b using encodeToString.induct encodeURL with
  | case1 => simp [encodeToString]
  | case2 a => simp [encodeToString]
  | case3 a b => simp [encodeToString]
  | case4 a b c rest ih => simp [encodeToString]; omega

theorem base64Decode_padded (b : List Byte) :
    base64Decode (encodeToString encodeURL b) = (b, none) := by
  have h := encodeToString_length b
  simp [base64Decode, h, decodeString, decodeLoop_encode]

theorem base64Decode_eq (s : GoString) : base64Decode s = decodeString encodeURL (repad s) := rfl

theorem trimRightPad_cons_ne (x : Byte) (xs : GoString) (h : x ≠ 61) :
    trimRightPad (x :: xs) = x :: trimRightPad xs := by
  cases hxs : trimRightPad xs with
  | nil => simp [trimRightPad, hxs, h]
  | cons r rs => simp [trimRightPad, hxs]

theorem utf8_pad1 : utf8 "=" = [61] := by decide

theorem utf8_pad2 : utf8 "==" = [61, 61] := by decide

theorem repad_cons4 (a b c d : Byte) (t : GoString) :
    repad (a :: b :: c :: d :: t) = a :: b :: c :: d :: repad t := by
  have h : (a :: b :: c :: d :: t).length % 4 = t.length % 4 := by
    simp only [List.length_cons]
    omega
  unfold repad
  rw [h]
  split <;> simp

theorem repad_trim_encode (b : List Byte) :
    repad (trimRightPad (encodeToString encodeURL b)) = encodeToString encodeURL b := by
  induction b using encodeToString.induct encodeURL with
  | case1 => simp [encodeToString, trimRightPad, repad]
  | case2 a =>
    have ha := a.isLt
    have h0 := encodeChar_ne_pad (a.val / 4) (by omega)
    have h1 := encodeChar_ne_pad (a.val % 4 * 16) (by omega)
    simp [encodeToString, trimRightPad_cons_ne, h0, h1, trimRightPad, repad, utf8_pad2]
  | case3 a b =>
    have ha := a.isLt
    have hb := b.isLt
    have h0 := encodeChar_ne_pad (a.val / 4) (by omega)
    have h1 := encodeChar_ne_pad (a.val % 4 * 16 + b.val / 16) (by omega)
    have h2 := encodeChar_ne_pad (b.val % 16 * 4) (by omega)
    simp [encodeToString, trimRightPad_cons_ne, h0, h1, h2, trimRightPad, repad, utf8_pad1]
  | case4 a b c rest ih =>
    have ha := a.isLt
    have hb := b.isLt
    have hc := c.isLt
    have h0 := encodeChar_ne_pad (a.val / 4) (by omega)
    have h1 := encodeChar_ne_pad (a.val % 4 * 16 + b.val / 16) (by omega)
    have h2 := encodeChar_ne_pad (b.val % 16 * 4 + c.val / 64) (by omega)
    have h3 := encodeChar_ne_pad (c.val % 64) (by omega)
    simp [encodeToString, trimRightPad_cons_ne, h0, h1, h2, h3, repad_cons4, ih]

theorem base64Decode_trimmed (b : List Byte) :
    base64Decode (trimRightPad (encodeToString encodeURL b)) = (b, none) := by
  rw [base64Decode_eq, repad_trim_encode]
  simp [decodeString, decodeLoop_encode]

theorem skipNewlines_of_noNewline (s : GoString) (si : Nat) (h : noNewline s) :
    skipNewlines s si = (s, si) := by
  cases s with
  | nil => rfl
  | cons c rest =>
    have hc := h c (by simp)
    simp [skipNewlines, hc.1, hc.2]

theorem decodeLoop_error (n : Nat) (s : GoString) :
    ∀ (si : Nat) (dbuf : List Nat) (out : List Byte), noNewline s → dbuf.length ≤ 3 →
      (dbuf.length + s.length) % 4 = 1 →
      (decodeLoop encodeURL n s si dbuf out).2 ≠ none := by
  induction s with
  | nil =>
    intro si dbuf out _ hd hl
    have : dbuf.length ≠ 0 := by
      intro h0; simp [h0] at hl
    simp [decodeLoop, this]
  | cons c rest ih =>
    intro si dbuf out hn hd hl
    have hc := hn c (by simp)
    have hrest : noNewline rest := fun x hx => hn x (by simp [hx])
    simp only [List.length_cons] at hl
    unfold decodeLoop
    cases hm : decodeMap encodeURL c with
    | some v =>
      simp only
      split
      · rename_i h3
        apply ih _ _ _ hrest (by simp)
        simp; omega
      · apply ih _ _ _ hrest (by simp; omega)
        simp; omega
    | none =>
      simp only [hc.1, hc.2, or_self, if_false]
      by_cases h61 : c = 61
      · simp only [h61, ne_eq, not_true_eq_false, if_false]
        by_cases hlt : dbuf.length < 2
        · simp [hlt]
        · simp only [hlt, if_false]
          by_cases h2 : dbuf.length = 2
          · simp only [h2, if_true]
            rw [skipNewlines_of_noNewline rest _ hrest]
            cases rest with
            | nil => simp
            | cons c2 rest2 =>
              simp only
              by_cases hc2 : c2 = 61
              · have hrest2 : noNewline rest2 := fun x hx => hrest x (by simp [hx])
                simp only [hc2, ne_eq, not_true_eq_false, if_false]
                rw [skipNewlines_of_noNewline rest2 _ hrest2]
                cases rest2 with
                | nil => simp [h2] at hl
                | cons c3 rest3 => simp
              · simp [hc2]
          · simp only [h2, if_false]
            have h3 : dbuf.length = 3 := by omega
            rw [skipNewlines_of_noNewline rest _ hrest]
            cases rest with
            | nil => simp [h3] at hl
            | cons c2 rest2 => simp
      · simp [h61]

theorem base64Decode_error (s : GoString) (hn : noNewline s) (hl : s.length % 4 = 1) :
    (base64Decode s).2 ≠ none := by
  have h := decodeLoop_error s.length s 0 [] [] hn (by simp) (by simpa using hl)
  simpa [base64Decode, hl, decodeString] using h

/-! ## Theorems: UTF-8 and JSON strings -/

theorem encodeRune_ascii (r : Nat) (h : r < 128) : encodeRune r = [byte r] := by
  simp [encodeRune, h]

theorem decodeRune_two (p0 b1 : Byte) (t : GoString) (h0 : 0xC2 ≤ p0.val) (h0' : p0.val < 0xE0)
    (h1 : 0x80 ≤ b1.val) (h1' : b1.val ≤ 0xBF) :
    decodeRune (p0 :: b1 :: t) = (p0.val % 32 * 64 + b1.val % 64, 2) := by
  have e1 : ¬ p0.val < 0x80 := by omega
  have e2 : ¬ p0.val < 0xC2 := by omega
  simp [decodeRune, inRange, e1, e2, h0', h1, h1']

theorem decodeRune_three (p0 b1 b2 : Byte) (t : GoString) (h0 : 0xE0 ≤ p0.val)
    (h0' : p0.val < 0xF0) (hlo : (if p0.val = 0xE0 then 0xA0 else 0x80) ≤ b1.val)
    (hhi : b1.val ≤ (if p0.val = 0xED then 0x9F else 0xBF))
    (h2 : 0x80 ≤ b2.val) (h2' : b2.val ≤ 0xBF) :
    decodeRune (p0 :: b1 :: b2 :: t) =
      (p0.val % 16 * 4096 + b1.val % 64 * 64 + b2.val % 64, 3) := by
  have e1 : ¬ p0.val < 0x80 := by omega
  have e2 : ¬ p0.val < 0xC2 := by omega
  have e3 : ¬ p0.val < 0xE0 := by omega
  simp [decodeRune, inRange, e1, e2, e3, h0', hlo, hhi, h2, h2']

theorem decodeRune_four (p0 b1 b2 b3 : Byte) (t : GoString) (h0 : 0xF0 ≤ p0.val)
    (h0' : p0.val < 0xF5) (hlo : (if p0.val = 0xF0 then 0x90 else 0x80) ≤ b1.val)
    (hhi : b1.val ≤ (if p0.val = 0xF4 then 0x8F else 0xBF))
    (h2 : 0x80 ≤ b2.val) (h2' : b2.val ≤ 0xBF) (h3 : 0x80 ≤ b3.val) (h3' : b3.val ≤ 0xBF) :
    decodeRune (p0 :: b1 :: b2 :: b3 :: t) =
      (p0.val % 8 * 262144 + b1.val % 64 * 4096 + b2.val % 64 * 64 + b3.val % 64, 4) := by
  have e1 : ¬ p0.val < 0x80 := by omega
  have e2 : ¬ p0.val < 0xC2 := by omega
  have e3 : ¬ p0.val < 0xE0 := by omega
  have e4 : ¬ p0.val < 0xF0 := by omega
  simp [decodeRune, inRange, e1, e2, e3, e4, h0', hlo, hhi, h2, h2', h3, h3']

theorem decodeRune_encodeRune (r : Nat) (t : GoString) (h128 : 128 ≤ r)
    (hv : r < 0xD800 ∨ (0xDFFF < r ∧ r < 0x110000)) :
    decodeRune (encodeRune r ++ t) = (r, (encodeRune r).length) := by
  unfold encodeRune
  have h1 : ¬ r < 128 := by omega
  simp only [h1, if_false]
  by_cases h2 : r < 0x800
  · simp only [h2, if_true, List.cons_append, List.nil_append, List.length_cons,
      List.length_nil]
    rw [decodeRune_two _ _ _ (by simp only [byte_val]; omega) (by simp only [byte_val]; omega)
      (by simp only [byte_val]; omega) (by simp only [byte_val]; omega)]
    simp only [byte_val, Prod.mk.injEq, and_true]
    omega
  · have h3 : ¬ ((0xD800 ≤ r ∧ r < 0xE000) ∨ 0x10FFFF < r) := by omega
    simp only [h2, h3, if_false]
    by_cases h4 : r < 0x10000
    · simp only [h4, if_true, List.cons_append, List.nil_append, List.length_cons,
        List.length_nil]
      rw [decodeRune_three _ _ _ _ (by simp only [byte_val]; omega)
        (by simp only [byte_val]; omega)
        (by simp only [byte_val]; split <;> omega)
        (by simp only [byte_val]; split <;> omega)
        (by simp only [byte_val]; omega) (by simp only [byte_val]; omega)]
      simp only [byte_val, Prod.mk.injEq, and_true]
      omega
    · simp only [h4, if_false, List.cons_append, List.nil_append, List.length_cons,
        List.length_nil]
      rw [decodeRune_four _ _ _ _ _ (by simp only [byte_val]; omega)
        (by simp only [byte_val]; omega)
        (by simp only [byte_val]; split <;> omega)
        (by simp only [byte_val]; split <;> omega)
        (by simp only [byte_val]; omega) (by simp only [byte_val]; omega)
        (by simp only [byte_val]; omega) (by simp only [byte_val]; omega)]
      simp only [byte_val, Prod.mk.injEq, and_true]
      omega

theorem encodeRune_length_pos (r : Nat) : 0 < (encodeRune r).length := by
  unfold encodeRune
  split_ifs <;> simp

theorem encodeRune_head (r : Nat) (h128 : 128 ≤ r) :
    ∃ p0 t, encodeRune r = p0 :: t ∧ 128 ≤ p0.val := by
  unfold encodeRune
  have h1 : ¬ r < 128 := by omega
  simp only [h1, if_false]
  split_ifs with h2 h3 h4
  · exact ⟨_, _, rfl, by simp only [byte_val]; omega⟩
  · exact ⟨_, _, rfl, by decide⟩
  · exact ⟨_, _, rfl, by simp only [byte_val]; omega⟩
  · exact ⟨_, _, rfl, by simp only [byte_val]; omega⟩

theorem char_valid (c : Char) :
    c.toNat < 0xD800 ∨ (0xDFFF < c.toNat ∧ c.toNat < 0x110000) := c.valid

theorem hexVal_hexDigit (n : Nat) (h : n < 16) : hexVal (hexDigit n) = some n := by
  have : ∀ i : Fin 16, hexVal (hexDigit i.val) = some i.val := by decide
  exact this ⟨n, h⟩


theorem jsonEscapeChar_length_pos (c : Char) : 0 < (jsonEscapeChar c).length := by
  unfold jsonEscapeChar
  split_ifs
  · simp
  · simp
  · simp
  · exact encodeRune_length_pos _

theorem unquoteBody_escape (cs : List Char) :
    ∀ (fuel : Nat) (acc rest : GoString), (cs.flatMap jsonEscapeChar).length < fuel →
      unquoteBody fuel (cs.flatMap jsonEscapeChar ++ 34 :: rest) acc =
        some (acc ++ cs.flatMap (fun c => encodeRune c.toNat), rest) := by
  induction cs with
  | nil =>
    intro fuel acc rest hf
    obtain ⟨f, rfl⟩ : ∃ f, fuel = f + 1 := ⟨fuel - 1, by omega⟩
    simp [unquoteBody, unquoteStep]
  | cons c cs ih =>
    intro fuel acc rest hf
    obtain ⟨f, rfl⟩ : ∃ f, fuel = f + 1 := ⟨fuel - 1, by omega⟩
    simp only [List.flatMap_cons, List.length_append] at hf
    have hf' : (cs.flatMap jsonEscapeChar).length < f := by
      have := jsonEscapeChar_length_pos c
      omega
    have he34 : encodeRune 34 = [34] := by decide
    have he92 : encodeRune 92 = [92] := by decide
    simp only [List.flatMap_cons, List.append_assoc]
    by_cases h34 : c.toNat = 34
    · have he : encodeRune c.toNat = [34] := by rw [h34]; decide
      simp [jsonEscapeChar, h34, unquoteBody, unquoteStep, ih f _ rest hf', he, he34, he92]
    · by_cases h92 : c.toNat = 92
      · have he : encodeRune c.toNat = [92] := by rw [h92]; decide
        simp [jsonEscapeChar, h92, unquoteBody, unquoteStep, ih f _ rest hf', he, he34, he92]
      · by_cases h32 : c.toNat < 32
        · have hx1 := hexVal_hexDigit (c.toNat / 16) (by omega)
          have hx2 := hexVal_hexDigit (c.toNat % 16) (by omega)
          have h0 : hexVal 48 = some 0 := by decide
          have hsur : ¬ (55296 ≤ c.toNat) := by omega
          have hval : c.toNat / 16 * 16 + c.toNat % 16 = c.toNat := by omega
          simp [jsonEscapeChar, h34, h92, h32, unquoteBody, unquoteStep, hex4, hx1, hx2, h0, hval, hsur,
            ih f _ rest hf']
        · by_cases h128 : c.toNat < 128
          · have hb : (byte c.toNat).val = c.toNat := by simp only [byte_val]; omega
            have e1 : byte c.toNat ≠ 34 := by
              intro h; have := congrArg Fin.val h; rw [hb] at this; exact h34 this
            have e2 : byte c.toNat ≠ 92 := by
              intro h; have := congrArg Fin.val h; rw [hb] at this; exact h92 this
            simp [jsonEscapeChar, h34, h92, h32, encodeRune_ascii _ h128, unquoteBody, unquoteStep, e1, e2,
              hb, h128, ih f _ rest hf']
          · have hpos := encodeRune_length_pos c.toNat
            obtain ⟨p0, t, hpt, hp0⟩ := encodeRune_head c.toNat (by omega)
            have hdec := decodeRune_encodeRune c.toNat
              (cs.flatMap jsonEscapeChar ++ 34 :: rest) (by omega) (char_valid c)
            have e1 : p0 ≠ 34 := by
              intro h; rw [h] at hp0; revert hp0; decide
            have e2 : p0 ≠ 92 := by
              intro h; rw [h] at hp0; revert hp0; decide
            have e3 : ¬ p0.val < 32 := by omega
            have e4 : ¬ p0.val < 128 := by omega
            simp only [jsonEscapeChar, h34, h92, h32, if_false]
            have hcons : encodeRune c.toNat ++ (cs.flatMap jsonEscapeChar ++ 34 :: rest) =
                p0 :: (t ++ (cs.flatMap jsonEscapeChar ++ 34 :: rest)) := by
              rw [hpt]; rfl
            rw [hcons] at hdec ⊢
            simp only [unquoteBody, unquoteStep, e1, e2, e3, e4, if_false, hdec]
            rw [← hcons, List.drop_left, ih f _ rest hf']
            simp

theorem parseString_jsonQuote (X : String) (rest : GoString) :
    parseString (jsonQuote X ++ 34 :: rest) = some (utf8 X, rest) := by
  have h := unquoteBody_escape X.toList (jsonQuote X ++ 34 :: rest).length [] rest
    (by simp [jsonQuote])
  simpa [parseString, jsonQuote, utf8] using h

theorem jsonQuote_Sub : jsonQuote "Sub" = [83, 117, 98] := by decide

theorem utf8_Sub : utf8 "Sub" = [83, 117, 98] := by decide

theorem claimSetJSON_eq (X : String) :
    claimSetJSON X =
      123 :: 34 :: (jsonQuote "Sub" ++ 34 :: 58 :: 32 :: 34 :: (jsonQuote X ++ 34 :: [125])) := by
  have h1 : utf8 "\x7b\"Sub\": \"" = [123, 34, 83, 117, 98, 34, 58, 32, 34] := by decide
  have h2 : utf8 "\"\x7d" = [34, 125] := by decide
  simp [claimSetJSON, h1, h2, jsonQuote_Sub]

theorem parseDocument_claimSetJSON (X : String) :
    parseDocument (claimSetJSON X) = some (.object [(utf8 "Sub", .string (utf8 X))]) := by
  obtain ⟨k, hk⟩ : ∃ k, parseFuel (claimSetJSON X) = k + 3 :=
    ⟨parseFuel (claimSetJSON X) - 3, by simp [parseFuel, claimSetJSON_eq]; omega⟩
  unfold parseDocument
  rw [hk, claimSetJSON_eq]
  simp [skipWS, isSpace, parseValue, parseMembers, parseString_jsonQuote]

theorem keyMatches_Sub : keyMatches "Sub" (utf8 "Sub") = true := by decide

theorem jsonUnmarshal_claimSetJSON (X : String) :
    jsonUnmarshal ClaimSet.setField (claimSetJSON X) ClaimSet.zero = ({ Sub := utf8 X }, none) := by
  simp [jsonUnmarshal, parseDocument_claimSetJSON, storeStruct, storeMembers, ClaimSet.setField,
    keyMatches_Sub, storeString]

theorem decodeIdToken_of_segment (token p0 seg : GoString) (rest : List GoString) (b : List Byte)
    (set : ClaimSet)
    (hsplit : stringsSplit 46 token = p0 :: seg :: rest)
    (hseg : base64Decode seg = (b, none))
    (hjson : jsonUnmarshal ClaimSet.setField b ClaimSet.zero = (set, none)) :
    decodeIdToken token = (set.Sub, none) := by
  have hne : token ≠ [] := by
    intro h
    rw [h] at hsplit
    simp [stringsSplit] at hsplit
  simp [decodeIdToken, hne, hsplit, hseg, hjson]


/-! ## Theorems: the fuel of the JSON parser is enough -/

theorem skipWS_length_le (s : GoString) : (skipWS s).length ≤ s.length := by
  induction s with
  | nil => simp [skipWS]
  | cons c rest ih =>
    unfold skipWS
    split
    · simp; omega
    · simp

theorem takeDigits_length_le (s : GoString) : (takeDigits s).2.length ≤ s.length := by
  induction s with
  | nil => simp [takeDigits]
  | cons c rest ih =>
    unfold takeDigits
    split
    · simp; omega
    · simp

theorem hex4_length (s r : GoString) (v : Nat) (h : hex4 s = some (v, r)) :
    s.length = r.length + 4 := by
  unfold hex4 at h
  split at h
  · split at h
    · simp only [Option.some.injEq, Prod.mk.injEq] at h
      rw [← h.2]
      simp
    · exact absurd h (by simp)
  · exact absurd h (by simp)

theorem getu4_length (s r : GoString) (v : Nat) (h : getu4 s = some (v, r)) :
    s.length = r.length + 6 := by
  unfold getu4 at h
  split at h
  · have := hex4_length _ _ _ h
    simp; omega
  · exact absurd h (by simp)

theorem decodeRune_size_pos (c : Byte) (rest : GoString) : 1 ≤ (decodeRune (c :: rest)).2 := by
  unfold decodeRune
  simp only
  repeat' split
  all_goals simp

theorem decodeRune_drop_length (c : Byte) (rest : GoString) :
    ((c :: rest).drop (decodeRune (c :: rest)).2).length < (c :: rest).length := by
  have := decodeRune_size_pos c rest
  simp only [List.length_drop, List.length_cons]
  omega

theorem unquoteStep_done_length (s r : GoString) (h : unquoteStep s = .done r) :
    r.length < s.length := by
  unfold unquoteStep at h
  repeat' split at h
  all_goals first
    | (simp only [UnquoteStep.done.injEq] at h; subst h; simp)
    | (simp at h)

theorem unquoteStep_emit_length (s b r : GoString) (h : unquoteStep s = .emit b r) :
    r.length < s.length := by
  cases s with
  | nil => simp [unquoteStep] at h
  | cons c rest =>
    simp only [unquoteStep] at h
    split at h
    · exact absurd h (by simp)
    · split at h
      · cases rest with
        | nil => simp at h
        | cons e rest2 =>
          simp only at h
          repeat' split at h
          all_goals first
            | (simp only [UnquoteStep.emit.injEq] at h
               obtain ⟨_, rfl⟩ := h
               first
                 | (simp only [List.length_cons]; omega)
                 | (have h4 := hex4_length _ _ _ (by assumption)
                    have h6 := getu4_length _ _ _ (by assumption)
                    simp only [List.length_cons] at h4 h6 ⊢
                    omega)
                 | (have h4 := hex4_length _ _ _ (by assumption)
                    simp only [List.length_cons] at h4 ⊢
                    omega))
            | (simp at h)
      · split at h
        · exact absurd h (by simp)
        · split at h
          · simp only [UnquoteStep.emit.injEq] at h
            obtain ⟨_, rfl⟩ := h
            simp only [List.length_cons]; omega
          · simp only [UnquoteStep.emit.injEq] at h
            obtain ⟨_, rfl⟩ := h
            exact decodeRune_drop_length c rest

theorem unquoteBody_fuel (f : Nat) :
    ∀ (s acc x r : GoString), unquoteBody f s acc = some (x, r) →
      r.length < s.length ∧
        ∀ f2 : Nat, s.length ≤ f2 + r.length → unquoteBody f2 s acc = some (x, r) := by
  induction f with
  | zero => intro s acc x r h; simp [unquoteBody] at h
  | succ f ih =>
    intro s acc x r h
    simp only [unquoteBody] at h
    split at h
    · rename_i rest hstep
      simp only [Option.some.injEq, Prod.mk.injEq] at h
      obtain ⟨rfl, rfl⟩ := h
      have hl := unquoteStep_done_length _ _ hstep
      refine ⟨hl, ?_⟩
      intro f2 hf2
      obtain ⟨k, rfl⟩ : ∃ k, f2 = k + 1 := ⟨f2 - 1, by omega⟩
      simp [unquoteBody, hstep]
    · rename_i bytes rest hstep
      have hl := unquoteStep_emit_length _ _ _ hstep
      obtain ⟨h1, h2⟩ := ih _ _ _ _ h
      refine ⟨by omega, ?_⟩
      intro f2 hf2
      obtain ⟨k, rfl⟩ : ∃ k, f2 = k + 1 := ⟨f2 - 1, by omega⟩
      simp only [unquoteBody, hstep]
      exact h2 k (by omega)
    · exact absurd h (by simp)

theorem parseString_length (s x r : GoString) (h : parseString s = some (x, r)) :
    r.length < s.length :=
  (unquoteBody_fuel _ s [] x r h).1

/-- The fuel `parseString` gives to `unquoteBody` is enough: whenever some
amount of fuel yields a result, `parseString` yields the same. -/
theorem parseString_of_fuel (f : Nat) (s x r : GoString)
    (h : unquoteBody f s [] = some (x, r)) : parseString s = some (x, r) :=
  (unquoteBody_fuel f s [] x r h).2 s.length (by omega)

theorem parseExponent_length (s t r : GoString) (h : parseExponent s = some (t, r)) :
    r.length ≤ s.length := by
  unfold parseExponent at h
  split at h
  · rename_i c rest
    split at h
    · split at h
      · rename_i sg rest2
        split at h
        · have := takeDigits_length_le rest2
          split at h
          · exact absurd h (by simp)
          · rename_i ds r2 _ heq
            simp only [Option.some.injEq, Prod.mk.injEq] at h
            rw [heq] at this
            rw [← h.2]
            simp only [List.length_cons] at this ⊢
            omega
        · have := takeDigits_length_le (sg :: rest2)
          split at h
          · exact absurd h (by simp)
          · rename_i ds r2 _ heq
            simp only [Option.some.injEq, Prod.mk.injEq] at h
            rw [heq] at this
            rw [← h.2]
            simp only [List.length_cons] at this ⊢
            omega
      · exact absurd h (by simp)
    · simp only [Option.some.injEq, Prod.mk.injEq] at h
      rw [← h.2]
  · simp only [Option.some.injEq, Prod.mk.injEq] at h
    rw [← h.2]

theorem parseFraction_length (s t r : GoString) (h : parseFraction s = some (t, r)) :
    r.length ≤ s.length := by
  unfold parseFraction at h
  split at h
  · rename_i c rest
    split at h
    · have hd := takeDigits_length_le rest
      split at h
      · exact absurd h (by simp)
      · rename_i ds r2 _ heq
        rw [heq] at hd
        split at h
        · exact absurd h (by simp)
        · rename_i e r3 hexp
          have he := parseExponent_length _ _ _ hexp
          simp only [Option.some.injEq, Prod.mk.injEq] at h
          rw [← h.2]
          simp only [List.length_cons] at hd ⊢
          omega
    · exact parseExponent_length _ _ _ h
  · simp only [Option.some.injEq, Prod.mk.injEq] at h
    rw [← h.2]

theorem parseUnsigned_length (s t r : GoString) (h : parseUnsigned s = some (t, r)) :
    r.length < s.length := by
  unfold parseUnsigned at h
  split at h
  · rename_i c rest
    split at h
    · split at h
      · exact absurd h (by simp)
      · rename_i f r2 hf
        have := parseFraction_length _ _ _ hf
        simp only [Option.some.injEq, Prod.mk.injEq] at h
        rw [← h.2]
        simp only [List.length_cons]
        omega
    · split at h
      · split at h
        · exact absurd h (by simp)
        · rename_i f r2 hf
          have := parseFraction_length _ _ _ hf
          have hd := takeDigits_length_le rest
          simp only [Option.some.injEq, Prod.mk.injEq] at h
          rw [← h.2]
          simp only [List.length_cons]
          omega
      · exact absurd h (by simp)
  · exact absurd h (by simp)

theorem parseNumber_length (s t r : GoString) (h : parseNumber s = some (t, r)) :
    r.length < s.length := by
  unfold parseNumber at h
  split at h
  · rename_i c rest
    split at h
    · split at h
      · exact absurd h (by simp)
      · rename_i u r2 hu
        have := parseUnsigned_length _ _ _ hu
        simp only [Option.some.injEq, Prod.mk.injEq] at h
        rw [← h.2]
        simp only [List.length_cons]
        omega
    · exact parseUnsigned_length _ _ _ h
  · exact absurd h (by simp)

theorem stripWord_length (w s r : GoString) (h : stripWord w s = some r) :
    r.length ≤ s.length := by
  unfold stripWord at h
  split at h
  · simp only [Option.some.injEq] at h
    rw [← h]
    simp
  · exact absurd h (by simp)


theorem parse_fuel (f : Nat) :
    (∀ (s : GoString) (v : JValue) (r : GoString), parseValue f s = some (v, r) →
      r.length < s.length ∧
        ∀ f2 : Nat, 2 * (s.length - r.length) ≤ f2 → parseValue f2 s = some (v, r)) ∧
    (∀ (s : GoString) (acc : List (GoString × JValue)) (v : JValue) (r : GoString),
      parseMembers f s acc = some (v, r) →
      r.length < s.length ∧
        ∀ f2 : Nat, 2 * (s.length - r.length) ≤ f2 → parseMembers f2 s acc = some (v, r)) ∧
    (∀ (s : GoString) (acc : List JValue) (v : JValue) (r : GoString),
      parseElems f s acc = some (v, r) →
      r.length < s.length ∧
        ∀ f2 : Nat, 2 * (s.length - r.length) + 1 ≤ f2 → parseElems f2 s acc = some (v, r)) := by
  induction f with
  | zero =>
    refine ⟨?_, ?_, ?_⟩
    · intro s v r h; simp [parseValue] at h
    · intro s acc v r h; simp [parseMembers] at h
    · intro s acc v r h; simp [parseElems] at h
  | succ f ih =>
    obtain ⟨ihP, ihQ, ihR⟩ := ih
    refine ⟨?_, ?_, ?_⟩
    · -- parseValue
      intro s v r h
      cases s with
      | nil => simp [parseValue] at h
      | cons c rest =>
        simp only [parseValue] at h
        by_cases h123 : c = 123
        · simp only [h123, if_true] at h
          have hlen := skipWS_length_le rest
          cases hws : skipWS rest with
          | nil => simp [hws] at h
          | cons d rest2 =>
            rw [hws] at hlen
            simp only [hws] at h
            simp only [List.length_cons] at hlen
            by_cases h125 : d = 125
            · simp only [h125, if_true, Option.some.injEq, Prod.mk.injEq] at h
              obtain ⟨rfl, rfl⟩ := h
              refine ⟨by simp only [List.length_cons]; omega, ?_⟩
              intro f2 hf2
              simp only [List.length_cons] at hf2
              obtain ⟨k, rfl⟩ : ∃ k, f2 = k + 1 := ⟨f2 - 1, by omega⟩
              simp [parseValue, h123, hws, h125]
            · simp only [h125, if_false] at h
              obtain ⟨hl, hf⟩ := ihQ _ _ _ _ h
              simp only [List.length_cons] at hl
              refine ⟨by simp only [List.length_cons]; omega, ?_⟩
              intro f2 hf2
              simp only [List.length_cons] at hf2
              obtain ⟨k, rfl⟩ : ∃ k, f2 = k + 1 := ⟨f2 - 1, by omega⟩
              simp only [parseValue, h123, if_true, hws, h125, if_false]
              exact hf k (by simp only [List.length_cons]; omega)
        · simp only [h123, if_false] at h
          by_cases h91 : c = 91
          · simp only [h91, if_true] at h
            have hlen := skipWS_length_le rest
            cases hws : skipWS rest with
            | nil => simp [hws] at h
            | cons d rest2 =>
              rw [hws] at hlen
              simp only [hws] at h
              simp only [List.length_cons] at hlen
              by_cases h93 : d = 93
              · simp only [h93, if_true, Option.some.injEq, Prod.mk.injEq] at h
                obtain ⟨rfl, rfl⟩ := h
                refine ⟨by simp only [List.length_cons]; omega, ?_⟩
                intro f2 hf2
                simp only [List.length_cons] at hf2
                obtain ⟨k, rfl⟩ : ∃ k, f2 = k + 1 := ⟨f2 - 1, by omega⟩
                simp [parseValue, h91, hws, h93]
              · simp only [h93, if_false] at h
                obtain ⟨hl, hf⟩ := ihR _ _ _ _ h
                simp only [List.length_cons] at hl
                refine ⟨by simp only [List.length_cons]; omega, ?_⟩
                intro f2 hf2
                simp only [List.length_cons] at hf2
                obtain ⟨k, rfl⟩ : ∃ k, f2 = k + 1 := ⟨f2 - 1, by omega⟩
                have e1 : ¬ (91 : Byte) = 123 := by decide
                simp only [parseValue, h91, e1, if_true, if_false, hws, h93]
                exact hf k (by simp only [List.length_cons]; omega)
          · simp only [h91, if_false] at h
            -- the remaining values do not use the fuel
            have hscalar : ∀ k : Nat, parseValue (k + 1) (c :: rest) = some (v, r) := by
              intro k
              simp only [parseValue, h123, h91, if_false]
              exact h
            have hl : r.length < (c :: rest).length := by
              by_cases h34 : c = 34
              · simp only [h34, if_true] at h
                cases hp : parseString rest with
                | none => simp [hp] at h
                | some p =>
                  obtain ⟨str, r2⟩ := p
                  simp only [hp, Option.some.injEq, Prod.mk.injEq] at h
                  have := parseString_length _ _ _ hp
                  rw [← h.2]
                  simp only [List.length_cons]; omega
              · simp only [h34, if_false] at h
                by_cases h116 : c = 116
                · simp only [h116, if_true] at h
                  cases hp : stripWord (utf8 "rue") rest with
                  | none => simp [hp] at h
                  | some r2 =>
                    simp only [hp, Option.map_some', Option.some.injEq, Prod.mk.injEq] at h
                    have := stripWord_length _ _ _ hp
                    rw [← h.2]
                    simp only [List.length_cons]; omega
                · simp only [h116, if_false] at h
                  by_cases h102 : c = 102
                  · simp only [h102, if_true] at h
                    cases hp : stripWord (utf8 "alse") rest with
                    | none => simp [hp] at h
                    | some r2 =>
                      simp only [hp, Option.map_some', Option.some.injEq, Prod.mk.injEq] at h
                      have := stripWord_length _ _ _ hp
                      rw [← h.2]
                      simp only [List.length_cons]; omega
                  · simp only [h102, if_false] at h
                    by_cases h110 : c = 110
                    · simp only [h110, if_true] at h
                      cases hp : stripWord (utf8 "ull") rest with
                      | none => simp [hp] at h
                      | some r2 =>
                        simp only [hp, Option.map_some', Option.some.injEq, Prod.mk.injEq] at h
                        have := stripWord_length _ _ _ hp
                        rw [← h.2]
                        simp only [List.length_cons]; omega
                    · simp only [h110, if_false] at h
                      cases hp : parseNumber (c :: rest) with
                      | none => simp [hp] at h
                      | some p =>
                        obtain ⟨t, r2⟩ := p
                        simp only [hp, Option.some.injEq, Prod.mk.injEq] at h
                        have := parseNumber_length _ _ _ hp
                        rw [← h.2]
                        exact this
            refine ⟨hl, ?_⟩
            intro f2 hf2
            obtain ⟨k, rfl⟩ : ∃ k, f2 = k + 1 := ⟨f2 - 1, by omega⟩
            exact hscalar k
    · -- parseMembers
      intro s acc v r h
      cases s with
      | nil => simp [parseMembers] at h
      | cons c rest =>
        simp only [parseMembers] at h
        by_cases h34 : c = 34
        · simp only [h34, if_true] at h
          cases hp : parseString rest with
          | none => simp [hp] at h
          | some p =>
            obtain ⟨key, r1⟩ := p
            have hkey := parseString_length _ _ _ hp
            simp only [hp] at h
            have hws1 := skipWS_length_le r1
            cases hw1 : skipWS r1 with
            | nil => simp [hw1] at h
            | cons colon r2 =>
              rw [hw1] at hws1
              simp only [hw1] at h
              simp only [List.length_cons] at hws1
              by_cases h58 : colon = 58
              · simp only [h58, if_true] at h
                have hws2 := skipWS_length_le r2
                cases hv : parseValue f (skipWS r2) with
                | none => simp [hv] at h
                | some q =>
                  obtain ⟨val, r3⟩ := q
                  obtain ⟨hvl, hvf⟩ := ihP _ _ _ hv
                  simp only [hv] at h
                  have hws3 := skipWS_length_le r3
                  cases hw3 : skipWS r3 with
                  | nil => simp [hw3] at h
                  | cons d r4 =>
                    rw [hw3] at hws3
                    simp only [hw3] at h
                    simp only [List.length_cons] at hws3
                    by_cases h44 : d = 44
                    · simp only [h44, if_true] at h
                      have hws4 := skipWS_length_le r4
                      obtain ⟨hl, hf⟩ := ihQ _ _ _ _ h
                      refine ⟨by simp only [List.length_cons]; omega, ?_⟩
                      intro f2 hf2
                      simp only [List.length_cons] at hf2
                      obtain ⟨k, rfl⟩ : ∃ k, f2 = k + 1 := ⟨f2 - 1, by omega⟩
                      simp only [parseMembers, h34, if_true, hp, hw1, h58]
                      rw [hvf k (by omega)]
                      simp only [hw3, h44, if_true]
                      exact hf k (by omega)
                    · simp only [h44, if_false] at h
                      by_cases h125 : d = 125
                      · simp only [h125, if_true, Option.some.injEq, Prod.mk.injEq] at h
                        obtain ⟨rfl, rfl⟩ := h
                        refine ⟨by simp only [List.length_cons]; omega, ?_⟩
                        intro f2 hf2
                        simp only [List.length_cons] at hf2
                        obtain ⟨k, rfl⟩ : ∃ k, f2 = k + 1 := ⟨f2 - 1, by omega⟩
                        simp only [parseMembers, h34, if_true, hp, hw1, h58]
                        rw [hvf k (by omega)]
                        have e1 : ¬ (125 : Byte) = 44 := by decide
                        simp [hw3, h125, e1]
                      · simp [h125] at h
              · simp [h58] at h
        · simp [h34] at h
    · -- parseElems
      intro s acc v r h
      simp only [parseElems] at h
      cases hv : parseValue f s with
      | none => simp [hv] at h
      | some q =>
        obtain ⟨val, r1⟩ := q
        obtain ⟨hvl, hvf⟩ := ihP _ _ _ hv
        simp only [hv] at h
        have hws1 := skipWS_length_le r1
        cases hw1 : skipWS r1 with
        | nil => simp [hw1] at h
        | cons d r2 =>
          rw [hw1] at hws1
          simp only [hw1] at h
          simp only [List.length_cons] at hws1
          by_cases h44 : d = 44
          · simp only [h44, if_true] at h
            have hws2 := skipWS_length_le r2
            obtain ⟨hl, hf⟩ := ihR _ _ _ _ h
            refine ⟨by omega, ?_⟩
            intro f2 hf2
            obtain ⟨k, rfl⟩ : ∃ k, f2 = k + 1 := ⟨f2 - 1, by omega⟩
            simp only [parseElems]
            rw [hvf k (by omega)]
            simp only [hw1, h44, if_true]
            exact hf k (by omega)
          · simp only [h44, if_false] at h
            by_cases h93 : d = 93
            · simp only [h93, if_true, Option.some.injEq, Prod.mk.injEq] at h
              obtain ⟨rfl, rfl⟩ := h
              refine ⟨by omega, ?_⟩
              intro f2 hf2
              obtain ⟨k, rfl⟩ : ∃ k, f2 = k + 1 := ⟨f2 - 1, by omega⟩
              simp only [parseElems]
              rw [hvf k (by omega)]
              have e1 : ¬ (93 : Byte) = 44 := by decide
              simp [hw1, h93, e1]
            · simp [h93] at h

/-- The fuel that `parseDocument` and `parseStream` give to `parseValue` is
enough: whenever some amount of fuel yields a value, so does `parseFuel`, and
the value is the same. -/
theorem parseValue_of_fuel (f : Nat) (s : GoString) (v : JValue) (r : GoString)
    (h : parseValue f s = some (v, r)) : parseValue (parseFuel s) s = some (v, r) :=
  ((parse_fuel f).1 s v r h).2 (parseFuel s) (by unfold parseFuel; omega)


/-! ## Theorems: `decodeIdToken` -/

/-- C1. For every string `X` and every ID token whose split on `.` has at
least two segments, the second being the URL-safe base64 encoding, padded or
with the padding stripped, of the JSON object `{"Sub": "X"}`: `decodeIdToken`
returns `X` and no error, whatever the other segments are. -/
theorem decodeIdToken_returns_sub (X : String) (token p0 seg : GoString) (rest : List GoString)
    (hsplit : stringsSplit 46 token = p0 :: seg :: rest)
    (hseg : seg = encodeToString encodeURL (claimSetJSON X) ∨
      seg = trimRightPad (encodeToString encodeURL (claimSetJSON X))) :
    decodeIdToken token = (utf8 X, none) := by
  have hb : base64Decode seg = (claimSetJSON X, none) := by
    rcases hseg with h | h
    · rw [h]; exact base64Decode_padded _
    · rw [h]; exact base64Decode_trimmed _
  exact decodeIdToken_of_segment token p0 seg rest _ _ hsplit hb (jsonUnmarshal_claimSetJSON X)

/-- Witness of C1: the token `hdr.eyJTdWIiOiAidTEifQ.sig`, whose middle segment is
the unpadded encoding of `{"Sub": "u1"}`. -/
theorem decodeIdToken_returns_sub_witness :
    decodeIdToken (utf8 "hdr.eyJTdWIiOiAidTEifQ.sig") = (utf8 "u1", none) :=
  decodeIdToken_returns_sub "u1" (utf8 "hdr.eyJTdWIiOiAidTEifQ.sig") (utf8 "hdr")
    (utf8 "eyJTdWIiOiAidTEifQ") [utf8 "sig"] (by decide) (Or.inr (by decide))

/-- C2 as stated fails: the empty token has fewer than two segments, and
`decodeIdToken` returns the empty identity without an error. -/
theorem decodeIdToken_empty_no_error :
    (stringsSplit 46 (utf8 "")).length < 2 ∧ decodeIdToken (utf8 "") = ([], none) := by
  decide

/-- C2, amended. For every non-empty ID token with fewer than two
dot-separated segments, `decodeIdToken` fails with the error
"Malformed ID token" and returns the empty identity. -/
theorem decodeIdToken_malformed (token : GoString) (hne : token ≠ [])
    (hparts : (stringsSplit 46 token).length < 2) :
    decodeIdToken token = ([], some (.new "Malformed ID token")) := by
  simp [decodeIdToken, hne, hparts]

/-- Witness of C2, amended: the token `abc`. -/
theorem decodeIdToken_malformed_witness :
    decodeIdToken (utf8 "abc") = ([], some (.new "Malformed ID token")) :=
  decodeIdToken_malformed (utf8 "abc") (by decide) (by decide)

theorem stringsSplit_ne_nil (sep : Byte) (s : GoString) : stringsSplit sep s ≠ [] := by
  cases s with
  | nil => simp [stringsSplit]
  | cons b bs =>
    unfold stringsSplit
    split
    · simp
    · split <;> simp

theorem stringsSplit_length (sep : Byte) (s : GoString) :
    (stringsSplit sep s).length = s.count sep + 1 := by
  induction s with
  | nil => simp [stringsSplit]
  | cons b bs ih =>
    unfold stringsSplit
    by_cases h : b = sep
    · simp [h, ih]
    · have hne := stringsSplit_ne_nil sep bs
      cases hs : stringsSplit sep bs with
      | nil => exact absurd hs hne
      | cons p ps =>
        rw [hs] at ih
        simp [h, ih, List.count_cons]
        simp at ih
        omega

/-- A token has fewer than two dot-separated segments exactly when it contains no dot. -/
theorem stringsSplit_lt_two_iff (s : GoString) :
    (stringsSplit 46 s).length < 2 ↔ (46 : Byte) ∉ s := by
  rw [stringsSplit_length, ← List.count_eq_zero]
  omega


/-! ## Theorems: the handlers -/

theorem serveError_new (err : Error) : serveError ResponseWriter.new err = serveErrorResponse :=
  rfl

theorem httpError_new (text : String) :
    httpError ResponseWriter.new text 500 = errorTextResponse text := by
  simp [httpError, errorTextResponse, ResponseWriter.new, ResponseWriter.setHeader,
    ResponseWriter.writeHeader, ResponseWriter.write]

theorem Session.get_set_eq (s : Session) (key : String) (v : Value) :
    (s.set key v).get key = v := by
  obtain ⟨vals⟩ := s
  simp only [Session.set, Session.get]
  induction vals with
  | nil => simp [setValue]
  | cons p rest ih =>
    obtain ⟨k, x⟩ := p
    by_cases h : k = key
    · simp [setValue, h]
    · simp [setValue, h, List.find?_cons]
      exact ih

theorem Session.get_set_ne (s : Session) (key key2 : String) (v : Value) (hne : key2 ≠ key) :
    (s.set key v).get key2 = s.get key2 := by
  obtain ⟨vals⟩ := s
  simp only [Session.set, Session.get]
  induction vals with
  | nil => simp [setValue, hne.symm]
  | cons p rest ih =>
    obtain ⟨k, x⟩ := p
    by_cases h : k = key
    · have h2 : ¬ k = key2 := by rw [h]; exact fun e => hne e.symm
      simp [setValue, h, List.find?_cons, hne.symm, h2]
    · by_cases h2 : k = key2
      · subst h2
        simp [setValue, h, List.find?_cons]
      · simp [setValue, h, List.find?_cons, h2]
        exact ih

/-- C5. When the introspection endpoint answers and its answer decodes as
JSON into the validation response `vr`: `validateToken` succeeds exactly when
`vr.Audience` equals the configured `iosClientID`; on success it returns
`vr.UserId`; for any other audience it returns the empty user id and the error
"Validating token failed!". -/
theorem validateToken_audience (cfg : Config) (env : Env) (token body : GoString) (σ : World)
    (vr : ValidationResponse)
    (hget : env.get (tokeninfoURL ++ token) = .ok body)
    (hdec : jsonDecode ValidationResponse.setField body ValidationResponse.zero = (vr, none)) :
    ((validateToken cfg env token σ).1.2 = none ↔ vr.Audience = cfg.iosClientID) ∧
    (vr.Audience = cfg.iosClientID → (validateToken cfg env token σ).1 = (vr.UserId, none)) ∧
    (vr.Audience ≠ cfg.iosClientID →
      (validateToken cfg env token σ).1 = ([], some (.new "Validating token failed!"))) := by
  by_cases h : vr.Audience = cfg.iosClientID
  · simp [validateToken, hget, hdec, h]
  · simp [validateToken, hget, hdec, h]

/-- C8. On a session whose `accessToken` value is nil, `disconnect` answers with
the `serveError` response (status 500), makes no external call (the trace and
the datastore are as before, so no revoke request and no session save), and
leaves the session as it was. -/
theorem disconnect_without_token (cfg : Config) (env : Env) (σ : World)
    (h : env.session.1.get "accessToken" = none) :
    disconnect cfg env σ =
      { w := serveErrorResponse, session := some env.session.1, world := σ, panicked := false } := by
  unfold disconnect
  rcases hs : env.session with ⟨session, _ | err⟩
  · rw [hs] at h
    simp [h, serveError_new]
  · simp [serveError_new]


theorem validateToken_world (cfg : Config) (env : Env) (token : GoString) (σ : World) :
    validateToken cfg env token σ =
      ((validateToken cfg env token emptyWorld).1, σ.record (.get (tokeninfoURL ++ token))) := by
  unfold validateToken
  simp only
  cases env.get (tokeninfoURL ++ token) with
  | error err => rfl
  | ok body =>
    simp only
    rcases jsonDecode ValidationResponse.setField body ValidationResponse.zero with ⟨vr, _ | e⟩
    · simp only
      split <;> rfl
    · rfl

theorem exchange_world (cfg : Config) (env : Env) (code : GoString) (σ : World) :
    (exchange cfg env code σ).2 = σ.record (.postForm tokenURL (exchangeValues cfg code)) := by
  unfold exchange
  simp only
  cases env.postForm tokenURL (exchangeValues cfg code) with
  | error err => rfl
  | ok body =>
    simp only
    rcases jsonDecode Token.setField body Token.zero with ⟨tk, _ | e⟩ <;> rfl

theorem Datastore.lookup_insert_eq (ds : Datastore) (k : Key) (m : Message) :
    (ds.insert k m).lookup k = some m := by
  simp [Datastore.insert, Datastore.lookup]

theorem find?_filter_ne (ds : Datastore) (k k2 : Key) (h : k2 ≠ k) :
    List.find? (fun p => decide (p.1 = k2)) (List.filter (fun p => decide (p.1 ≠ k)) ds) =
      List.find? (fun p => decide (p.1 = k2)) ds := by
  induction ds with
  | nil => rfl
  | cons p rest ih =>
    by_cases hp : p.1 = k
    · have hp2 : ¬ p.1 = k2 := by rw [hp]; exact fun e => h e.symm
      have e1 : decide (p.1 ≠ k) = false := by simp [hp]
      have e2 : decide (p.1 = k2) = false := by simp [hp2]
      simp only [List.filter_cons, e1, List.find?_cons, e2]
      exact ih
    · have e1 : decide (p.1 ≠ k) = true := by simp [hp]
      simp only [List.filter_cons, e1, List.find?_cons, if_true]
      rw [ih]

theorem Datastore.lookup_insert_ne (ds : Datastore) (k k2 : Key) (m : Message) (h : k2 ≠ k) :
    (ds.insert k m).lookup k2 = ds.lookup k2 := by
  have hk : ¬ k = k2 := fun e => h e.symm
  have e : decide (k = k2) = false := by simp [hk]
  simp only [Datastore.insert, Datastore.lookup, List.find?_cons, e]
  rw [find?_filter_ne ds k k2 h]

/-- The state mismatch part of C3 that the code fulfils: when the session holds
a state token different from the request's `state` form value, `connect`
answers with the `serveError` response, makes no external call and leaves the
session and the datastore as they were. -/
theorem connect_state_mismatch (cfg : Config) (env : Env) (σ : World) (session : Session)
    (st : GoString) (hs : env.session = (session, none))
    (hst : session.get "state" = some st) (hne : env.formValue "state" ≠ st) :
    connect cfg env σ =
      { w := serveErrorResponse, session := some session, world := σ, panicked := false } := by
  simp [connect, hs, hst, hne, serveError_new]

/-- Witness of `connect_state_mismatch`: stored state `s1`, submitted state `s2`. -/
theorem connect_state_mismatch_witness :
    connect exampleConfig
        { exampleEnv with
          session := ({ Values := [("state", some (utf8 "s1"))] }, none)
          formValue := fun _ => utf8 "s2" } emptyWorld =
      { w := serveErrorResponse, session := some { Values := [("state", some (utf8 "s1"))] },
        world := emptyWorld, panicked := false } :=
  connect_state_mismatch exampleConfig _ emptyWorld _ (utf8 "s1") rfl (by decide) (by decide)

/-- Unless the session's state token equals the request's `state` form value,
`connect` leaves the outside world as it was: it reaches no external call. -/
theorem connect_world_of_state_ne (cfg : Config) (env : Env) (σ : World)
    (hne : env.session.1.get "state" ≠ some (env.formValue "state")) :
    (connect cfg env σ).world = σ := by
  unfold connect
  rcases hs : env.session with ⟨session, _ | err⟩
  · rw [hs] at hne
    simp only
    cases hst : session.get "state" with
    | none => rfl
    | some st =>
      have : env.formValue "state" ≠ st := by
        intro h; apply hne; rw [hst, h]
      simp [this]
  · rfl

/-- The last part of C3: `connect` makes the code exchange call only when the
session's state token equals the request's `state` form value. -/
theorem connect_exchange_only_if_state_matches (cfg : Config) (env : Env) (σ : World)
    (hcall : (connect cfg env σ).world.trace ≠ σ.trace) :
    env.session.1.get "state" = some (env.formValue "state") := by
  by_contra hne
  exact hcall (by rw [connect_world_of_state_ne cfg env σ hne])

/-- C3, the failing input: a request to `/connect` whose session holds no state
token (no cookie) and whose `state` form value is `abc`.  The handler panics at
the type assertion: it writes no response at all. -/
theorem connect_without_state_panics :
    connect exampleConfig { exampleEnv with formValue := fun _ => utf8 "abc" } emptyWorld =
      { w := ResponseWriter.new, session := some { Values := [] }, world := emptyWorld,
        panicked := true } := by
  decide

/-- C4, the failing input: a request to `/paste` whose token fails validation
(the introspection fetch fails).  After `serveError` the handler goes on: it
sends a datastore read under the empty user id, and the body of the response
is longer than the "Internal Server Error" it starts with. -/
theorem paste_invalid_token_goes_on :
    (validateToken exampleConfig exampleEnv (utf8 "bearer") emptyWorld).1 =
        ([], some (.errorf "Failed to validate token with error: %v"
          (.external "urlfetch: fetch failed"))) ∧
      (paste exampleConfig exampleEnv emptyWorld).world.trace =
        [.get (tokeninfoURL ++ utf8 "bearer"), .datastoreGet (NewKey "copies" [] 0)] ∧
      (paste exampleConfig exampleEnv emptyWorld).w.status = some 500 ∧
      utf8 "Internal Server Error" <+: (paste exampleConfig exampleEnv emptyWorld).w.body ∧
      (utf8 "Internal Server Error").length <
        (paste exampleConfig exampleEnv emptyWorld).w.body.length := by
  decide

theorem validateToken_error_userId (cfg : Config) (env : Env) (token : GoString) (σ : World)
    (hfail : (validateToken cfg env token σ).1.2 ≠ none) :
    (validateToken cfg env token σ).1.1 = [] := by
  unfold validateToken at hfail ⊢
  simp only at hfail ⊢
  cases hg : env.get (tokeninfoURL ++ token) with
  | error err => rfl
  | ok body =>
    rw [hg] at hfail
    simp only at hfail ⊢
    rcases hd : jsonDecode ValidationResponse.setField body ValidationResponse.zero with
      ⟨vr, _ | e⟩
    · rw [hd] at hfail
      simp only at hfail ⊢
      by_cases ha : vr.Audience = cfg.iosClientID
      · simp [ha] at hfail
      · simp [ha]
    · rfl

theorem datastoreGet_world (env : Env) (σ : World) (k : Key) (m : Message) :
    (datastoreGet env σ k m).2 = σ.record (.datastoreGet k) := by
  unfold datastoreGet
  simp only
  cases env.datastoreGetError with
  | some e => rfl
  | none =>
    simp only
    split <;> rfl

theorem httpError_body (w : ResponseWriter) (text : String) (code : Nat) :
    (httpError w text code).body = w.body ++ (utf8 text ++ utf8 "\n") := by
  simp [httpError, ResponseWriter.setHeader, ResponseWriter.writeHeader, ResponseWriter.write]
  cases w.status <;> rfl

/-- On every request whose token fails validation, `paste` sends a datastore
read under the empty user id after `serveError`, and the body of its response
starts with "Internal Server Error". -/
theorem paste_invalid_token_reads_datastore (cfg : Config) (env : Env) (σ : World)
    (hfail : (validateToken cfg env env.authorization emptyWorld).1.2 ≠ none) :
    (paste cfg env σ).world.trace =
        σ.trace ++ [.get (tokeninfoURL ++ env.authorization),
          .datastoreGet (NewKey "copies" [] 0)] ∧
      utf8 "Internal Server Error" <+: (paste cfg env σ).w.body := by
  have hid := validateToken_error_userId cfg env env.authorization emptyWorld hfail
  unfold paste
  simp only
  rw [validateToken_world]
  rcases hv : (validateToken cfg env env.authorization emptyWorld).1 with ⟨userId, _ | err⟩
  · rw [hv] at hfail
    exact absurd rfl hfail
  · rw [hv] at hid
    simp only at hid
    subst hid
    simp only [serveError_new]
    have hw := datastoreGet_world env (σ.record (.get (tokeninfoURL ++ env.authorization)))
      (NewKey "copies" [] 0) Message.zero
    rcases hg : datastoreGet env (σ.record (.get (tokeninfoURL ++ env.authorization)))
      (NewKey "copies" [] 0) Message.zero with ⟨⟨m, e⟩, σ2⟩
    rw [hg] at hw
    simp only at hw
    subst hw
    cases e with
    | some text =>
      refine ⟨by simp [World.record], ?_⟩
      simp only [httpError_body]
      exact ⟨_, rfl⟩
    | none =>
      refine ⟨by simp [World.record], ?_⟩
      cases hm : (env.marshal m).2 with
      | some text =>
        simp only [hm, ResponseWriter.write, ResponseWriter.setHeader, httpError_body,
          List.append_assoc]
        exact ⟨_, rfl⟩
      | none =>
        simp only [hm, ResponseWriter.write, ResponseWriter.setHeader]
        exact ⟨_, rfl⟩

/-- Witness of `paste_invalid_token_reads_datastore`: the introspection fetch fails. -/
theorem paste_invalid_token_reads_datastore_witness :
    (paste exampleConfig exampleEnv emptyWorld).world.trace =
        emptyWorld.trace ++ [.get (tokeninfoURL ++ exampleEnv.authorization),
          .datastoreGet (NewKey "copies" [] 0)] ∧
      utf8 "Internal Server Error" <+: (paste exampleConfig exampleEnv emptyWorld).w.body :=
  paste_invalid_token_reads_datastore exampleConfig exampleEnv emptyWorld (by decide)


theorem exchange_eq (cfg : Config) (env : Env) (code : GoString) (σ : World) :
    exchange cfg env code σ =
      ((exchange cfg env code emptyWorld).1,
        σ.record (.postForm tokenURL (exchangeValues cfg code))) := by
  unfold exchange
  simp only
  cases env.postForm tokenURL (exchangeValues cfg code) with
  | error err => rfl
  | ok body =>
    simp only
    rcases jsonDecode Token.setField body Token.zero with ⟨tk, _ | e⟩ <;> rfl

theorem connect_reconnect (cfg : Config) (env : Env) (σ : World) (session : Session)
    (code accessToken idToken gplusID storedToken : GoString)
    (hs : env.session = (session, none))
    (hst : session.get "state" = some (env.formValue "state"))
    (hbody : env.body = (code, none))
    (hex : (exchange cfg env code emptyWorld).1 = (accessToken, idToken, none))
    (hid : decodeIdToken idToken = (gplusID, none))
    (htok : session.get "accessToken" = some storedToken)
    (hg : session.get "gplusID" = some gplusID) :
    connect cfg env σ =
      { w := ResponseWriter.new.write (utf8 "Connected"), session := some session,
        world := σ.record (.postForm tokenURL (exchangeValues cfg code)), panicked := false } := by
  unfold connect
  simp only [hs, hst, hbody]
  rw [exchange_eq, hex]
  simp [hid, htok, hg]

theorem connect_store (cfg : Config) (env : Env) (σ : World) (session : Session)
    (code accessToken idToken gplusID : GoString)
    (hs : env.session = (session, none))
    (hst : session.get "state" = some (env.formValue "state"))
    (hbody : env.body = (code, none))
    (hex : (exchange cfg env code emptyWorld).1 = (accessToken, idToken, none))
    (hid : decodeIdToken idToken = (gplusID, none))
    (hfresh : ¬ (session.get "accessToken" ≠ none ∧ session.get "gplusID" = some gplusID)) :
    connect cfg env σ =
      { w := ResponseWriter.new,
        session := some ((session.set "accessToken" (some accessToken)).set "gplusID"
          (some gplusID)),
        world := sessionSave ((session.set "accessToken" (some accessToken)).set "gplusID"
          (some gplusID)) (σ.record (.postForm tokenURL (exchangeValues cfg code))),
        panicked := false } := by
  unfold connect
  simp only [hs, hst, hbody]
  rw [exchange_eq, hex]
  simp only [hid, hfresh, if_false, ne_eq, not_true_eq_false]

set_option maxRecDepth 100000 in
/-- C6 as stated fails: on a session that is already connected as `u1` with the
access token `zero`, two successive calls to `connect` both succeed (their
exchanges return the access tokens `first` and `second`, both for the identity
`u1`, and both write "Connected"), and the session then holds `zero`, not the
first call's access token `first`. -/
theorem connect_twice_keeps_earlier_token :
    (exchange exampleConfig (connectEnv zeroSession "first") (utf8 "c1") emptyWorld).1 =
        (utf8 "first", utf8 "hdr.eyJTdWIiOiAidTEifQ.sig", none) ∧
      decodeIdToken (utf8 "hdr.eyJTdWIiOiAidTEifQ.sig") = (utf8 "u1", none) ∧
      connect exampleConfig (connectEnv zeroSession "first") emptyWorld =
        { w := ResponseWriter.new.write (utf8 "Connected"), session := some zeroSession,
          world := emptyWorld.record
            (.postForm tokenURL (exchangeValues exampleConfig (utf8 "c1"))),
          panicked := false } ∧
      connect exampleConfig (connectEnv zeroSession "second")
          (connect exampleConfig (connectEnv zeroSession "first") emptyWorld).world =
        { w := ResponseWriter.new.write (utf8 "Connected"), session := some zeroSession,
          world := (emptyWorld.record
            (.postForm tokenURL (exchangeValues exampleConfig (utf8 "c1")))).record
            (.postForm tokenURL (exchangeValues exampleConfig (utf8 "c1"))),
          panicked := false } ∧
      zeroSession.get "accessToken" = some (utf8 "zero") ∧
      zeroSession.get "accessToken" ≠ some (utf8 "first") := by
  decide

/-- C6, amended. (1) On a session that holds a non-nil access token and a
`gplusID` equal to the identity decoded from the newly exchanged ID token, with
a matching state token, `connect` writes "Connected", leaves the session as it
was, and its only external call is the code exchange: the new access token is
not stored and the session is not saved.  (2) A first call on a session that
is not already connected as the identity it resolves to stores its access token
and saves the session; a second call on that saved session that resolves to
the same identity writes "Connected" and leaves the session as the first call
left it, holding the first call's access token.  (3) When the session was
already connected as that identity before the first call, both calls write
"Connected" and the session keeps the access token it held before. -/
theorem connect_already_connected :
    (∀ (cfg : Config) (env : Env) (σ : World) (session : Session)
        (code accessToken idToken gplusID storedToken : GoString),
        env.session = (session, none) →
        session.get "state" = some (env.formValue "state") →
        env.body = (code, none) →
        (exchange cfg env code σ).1 = (accessToken, idToken, none) →
        decodeIdToken idToken = (gplusID, none) →
        session.get "accessToken" = some storedToken →
        session.get "gplusID" = some gplusID →
        connect cfg env σ =
          { w := ResponseWriter.new.write (utf8 "Connected"), session := some session,
            world := σ.record (.postForm tokenURL (exchangeValues cfg code)),
            panicked := false }) ∧
    (∀ (cfg : Config) (env1 env2 : Env) (σ : World) (s1 : Session)
        (code1 code2 at1 id1 at2 id2 g : GoString),
        env1.session = (s1, none) →
        s1.get "state" = some (env1.formValue "state") →
        env1.body = (code1, none) →
        (exchange cfg env1 code1 σ).1 = (at1, id1, none) →
        decodeIdToken id1 = (g, none) →
        ¬ (s1.get "accessToken" ≠ none ∧ s1.get "gplusID" = some g) →
        connect cfg env1 σ =
          { w := ResponseWriter.new, session := some (s1.connected at1 g),
            world := sessionSave (s1.connected at1 g)
              (σ.record (.postForm tokenURL (exchangeValues cfg code1))),
            panicked := false } ∧
        (s1.connected at1 g).get "accessToken" = some at1 ∧
        (env2.session = (s1.connected at1 g, none) →
          (s1.connected at1 g).get "state" = some (env2.formValue "state") →
          env2.body = (code2, none) →
          (exchange cfg env2 code2 (connect cfg env1 σ).world).1 = (at2, id2, none) →
          decodeIdToken id2 = (g, none) →
          connect cfg env2 (connect cfg env1 σ).world =
            { w := ResponseWriter.new.write (utf8 "Connected"),
              session := some (s1.connected at1 g),
              world := (connect cfg env1 σ).world.record
                (.postForm tokenURL (exchangeValues cfg code2)),
              panicked := false })) ∧
    (∀ (cfg : Config) (env1 env2 : Env) (σ : World) (s1 : Session)
        (code1 code2 at0 at1 id1 at2 id2 g : GoString),
        env1.session = (s1, none) →
        s1.get "state" = some (env1.formValue "state") →
        env1.body = (code1, none) →
        (exchange cfg env1 code1 σ).1 = (at1, id1, none) →
        decodeIdToken id1 = (g, none) →
        s1.get "accessToken" = some at0 →
        s1.get "gplusID" = some g →
        env2.session = (s1, none) →
        s1.get "state" = some (env2.formValue "state") →
        env2.body = (code2, none) →
        (exchange cfg env2 code2 (connect cfg env1 σ).world).1 = (at2, id2, none) →
        decodeIdToken id2 = (g, none) →
        connect cfg env1 σ =
          { w := ResponseWriter.new.write (utf8 "Connected"), session := some s1,
            world := σ.record (.postForm tokenURL (exchangeValues cfg code1)),
            panicked := false } ∧
        connect cfg env2 (connect cfg env1 σ).world =
          { w := ResponseWriter.new.write (utf8 "Connected"), session := some s1,
            world := (connect cfg env1 σ).world.record
              (.postForm tokenURL (exchangeValues cfg code2)),
            panicked := false }) := by
  refine ⟨?_, ?_, ?_⟩
  · intro cfg env σ session code accessToken idToken gplusID storedToken hs hst hbody hex hid
      htok hg
    rw [exchange_eq] at hex
    exact connect_reconnect cfg env σ session code accessToken idToken gplusID storedToken hs hst
      hbody hex hid htok hg
  · intro cfg env1 env2 σ s1 code1 code2 at1 id1 at2 id2 g hs1 hst1 hb1 hex1 hid1 hfresh
    rw [exchange_eq] at hex1
    have h1 := connect_store cfg env1 σ s1 code1 at1 id1 g hs1 hst1 hb1 hex1 hid1 hfresh
    have htok : (s1.connected at1 g).get "accessToken" = some at1 := by
      unfold Session.connected
      rw [Session.get_set_ne _ _ _ _ (by decide), Session.get_set_eq]
    have hg : (s1.connected at1 g).get "gplusID" = some g := by
      unfold Session.connected
      rw [Session.get_set_eq]
    refine ⟨h1, htok, ?_⟩
    intro he2 hst2 hb2 hex2 hid2
    rw [exchange_eq] at hex2
    exact connect_reconnect cfg env2 _ _ code2 at2 id2 g at1 he2 hst2 hb2 hex2 hid2 htok hg
  · intro cfg env1 env2 σ s1 code1 code2 at0 at1 id1 at2 id2 g hs1 hst1 hb1 hex1 hid1 htok hg
      hs2 hst2 hb2 hex2 hid2
    rw [exchange_eq] at hex1 hex2
    exact ⟨connect_reconnect cfg env1 σ s1 code1 at1 id1 g at0 hs1 hst1 hb1 hex1 hid1 htok hg,
      connect_reconnect cfg env2 _ s1 code2 at2 id2 g at0 hs2 hst2 hb2 hex2 hid2 htok hg⟩

set_option maxRecDepth 100000 in
/-- Witness of C6, amended: (1) a call on the session that holds `zero` for `u1`;
(2) a first call on a session that holds only the state token stores `first`
and saves, and a second call on the saved session, whose exchange returns
`second`, leaves it holding `first`; (3) two calls on the session that holds
`zero`. -/
theorem connect_already_connected_witness :
    connect exampleConfig (connectEnv zeroSession "second") emptyWorld =
      { w := ResponseWriter.new.write (utf8 "Connected"), session := some zeroSession,
        world := emptyWorld.record (.postForm tokenURL (exchangeValues exampleConfig (utf8 "c1"))),
        panicked := false } ∧
    (connect exampleConfig (connectEnv stateSession "first") emptyWorld =
        { w := ResponseWriter.new,
          session := some (stateSession.connected (utf8 "first") (utf8 "u1")),
          world := sessionSave (stateSession.connected (utf8 "first") (utf8 "u1"))
            (emptyWorld.record (.postForm tokenURL (exchangeValues exampleConfig (utf8 "c1")))),
          panicked := false } ∧
      (stateSession.connected (utf8 "first") (utf8 "u1")).get "accessToken" =
        some (utf8 "first") ∧
      connect exampleConfig
          (connectEnv (stateSession.connected (utf8 "first") (utf8 "u1")) "second")
          (connect exampleConfig (connectEnv stateSession "first") emptyWorld).world =
        { w := ResponseWriter.new.write (utf8 "Connected"),
          session := some (stateSession.connected (utf8 "first") (utf8 "u1")),
          world := (connect exampleConfig (connectEnv stateSession "first")
            emptyWorld).world.record
              (.postForm tokenURL (exchangeValues exampleConfig (utf8 "c1"))),
          panicked := false }) ∧
    (connect exampleConfig (connectEnv zeroSession "first") emptyWorld =
        { w := ResponseWriter.new.write (utf8 "Connected"), session := some zeroSession,
          world := emptyWorld.record
            (.postForm tokenURL (exchangeValues exampleConfig (utf8 "c1"))),
          panicked := false } ∧
      connect exampleConfig (connectEnv zeroSession "second")
          (connect exampleConfig (connectEnv zeroSession "first") emptyWorld).world =
        { w := ResponseWriter.new.write (utf8 "Connected"), session := some zeroSession,
          world := (connect exampleConfig (connectEnv zeroSession "first")
            emptyWorld).world.record
              (.postForm tokenURL (exchangeValues exampleConfig (utf8 "c1"))),
          panicked := false }) :=
  ⟨connect_already_connected.1 exampleConfig _ emptyWorld zeroSession (utf8 "c1") (utf8 "second")
      (utf8 "hdr.eyJTdWIiOiAidTEifQ.sig") (utf8 "u1") (utf8 "zero") rfl (by decide) rfl
      (by decide) (by decide) (by decide) (by decide),
    ⟨(connect_already_connected.2.1 exampleConfig (connectEnv stateSession "first")
        (connectEnv (stateSession.connected (utf8 "first") (utf8 "u1")) "second") emptyWorld
        stateSession (utf8 "c1") (utf8 "c1") (utf8 "first") (utf8 "hdr.eyJTdWIiOiAidTEifQ.sig")
        (utf8 "second") (utf8 "hdr.eyJTdWIiOiAidTEifQ.sig") (utf8 "u1") rfl (by decide) rfl
        (by decide) (by decide) (by decide)).1,
      (connect_already_connected.2.1 exampleConfig (connectEnv stateSession "first")
        (connectEnv (stateSession.connected (utf8 "first") (utf8 "u1")) "second") emptyWorld
        stateSession (utf8 "c1") (utf8 "c1") (utf8 "first") (utf8 "hdr.eyJTdWIiOiAidTEifQ.sig")
        (utf8 "second") (utf8 "hdr.eyJTdWIiOiAidTEifQ.sig") (utf8 "u1") rfl (by decide) rfl
        (by decide) (by decide) (by decide)).2.1,
      (connect_already_connected.2.1 exampleConfig (connectEnv stateSession "first")
        (connectEnv (stateSession.connected (utf8 "first") (utf8 "u1")) "second") emptyWorld
        stateSession (utf8 "c1") (utf8 "c1") (utf8 "first") (utf8 "hdr.eyJTdWIiOiAidTEifQ.sig")
        (utf8 "second") (utf8 "hdr.eyJTdWIiOiAidTEifQ.sig") (utf8 "u1") rfl (by decide) rfl
        (by decide) (by decide) (by decide)).2.2 rfl (by decide) rfl (by decide) (by decide)⟩,
    connect_already_connected.2.2 exampleConfig (connectEnv zeroSession "first")
      (connectEnv zeroSession "second") emptyWorld zeroSession (utf8 "c1") (utf8 "c1")
      (utf8 "zero") (utf8 "first") (utf8 "hdr.eyJTdWIiOiAidTEifQ.sig") (utf8 "second")
      (utf8 "hdr.eyJTdWIiOiAidTEifQ.sig") (utf8 "u1") rfl (by decide) rfl (by decide)
      (by decide) (by decide) (by decide) rfl (by decide) rfl (by decide) (by decide)⟩


theorem Key.complete_of_ne (u : GoString) (hu : u ≠ []) :
    (NewKey "copies" u 0).Incomplete = false := by
  simp [NewKey, Key.Incomplete, hu]

theorem paste_of_stored (cfg : Config) (env : Env) (σ : World) (u : GoString) (m : Message)
    (hval : (validateToken cfg env env.authorization σ).1 = (u, none))
    (hget : env.datastoreGetError = none)
    (hds : σ.ds.lookup (NewKey "copies" u 0) = some m)
    (hmar : (env.marshal m).2 = none) :
    (paste cfg env σ).w.status = some 200 ∧ (paste cfg env σ).w.body = (env.marshal m).1 := by
  rw [validateToken_world] at hval
  simp only at hval
  unfold paste
  simp only
  rw [validateToken_world, hval]
  simp [datastoreGet, hget, World.record, hds, hmar,
    ResponseWriter.new, ResponseWriter.setHeader, ResponseWriter.write,
    ResponseWriter.writeHeader]

theorem postCopy_ok (cfg : Config) (env : Env) (σ : World) (m : Message)
    (hm : m = (jsonUnmarshal Message.setField env.body.1
      { Message.zero with Time := env.now }).1)
    (hu : m.Identifier ≠ [])
    (hok : (postCopy cfg env σ).w.status = some 200) :
    (postCopy cfg env σ).world.ds = σ.ds.insert (NewKey "copies" m.Identifier 0) m := by
  unfold postCopy at hok ⊢
  simp only [← hm] at hok ⊢
  cases hp : env.datastorePutError with
  | some e =>
    simp [datastorePut, hp, httpError, ResponseWriter.new, ResponseWriter.setHeader,
      ResponseWriter.write, ResponseWriter.writeHeader] at hok
  | none =>
    simp [datastorePut, hp, Key.complete_of_ne _ hu, World.record]

theorem copyForm_ok (cfg : Config) (env : Env) (σ : World) (session : Session) (u : GoString)
    (hs : env.session = (session, none)) (hg : session.get "gplusID" = some u)
    (hu : u ≠ [])
    (hok : (copyForm cfg env σ).w.status = some 200) :
    (copyForm cfg env σ).world.ds =
      σ.ds.insert (NewKey "copies" u 0)
        { Identifier := u, Text := env.formValue "pasta", Time := env.now } := by
  unfold copyForm at hok ⊢
  simp only [hs, hg] at hok ⊢
  cases hp : env.datastorePutError with
  | some e =>
    simp [datastorePut, hp, httpError, ResponseWriter.new, ResponseWriter.setHeader,
      ResponseWriter.write, ResponseWriter.writeHeader] at hok
  | none =>
    simp [datastorePut, hp, Key.complete_of_ne _ hu, World.record]

theorem paste_ds (cfg : Config) (env : Env) (σ : World) : (paste cfg env σ).world.ds = σ.ds := by
  unfold paste
  simp only
  rw [validateToken_world]
  rcases (validateToken cfg env env.authorization emptyWorld).1 with ⟨userId, err⟩
  simp only
  have hw := datastoreGet_world env (σ.record (.get (tokeninfoURL ++ env.authorization)))
    (NewKey "copies" userId 0) Message.zero
  rcases hg : datastoreGet env (σ.record (.get (tokeninfoURL ++ env.authorization)))
    (NewKey "copies" userId 0) Message.zero with ⟨⟨m, e⟩, σ2⟩
  rw [hg] at hw
  simp only at hw
  subst hw
  cases e <;> rfl

/-- C7. For every datastore state, every non-empty identifier `u` and every
text `t`: (1) after `postCopy` has succeeded (answered with status 200) on a
body that decodes to a record with `Identifier` `u` and `Text` `t`, or (2)
after `copyForm` has succeeded for a session whose `gplusID` is `u` with form
field `pasta` equal to `t`, a `paste` request whose token validates to the user
id `u` (the datastore read and the JSON encoder not failing) answers with
status 200 and the JSON serialisation of a record whose `Identifier` is `u`
and whose `Text` is `t`, whatever was stored for `u` before; and after both
requests the records under every other key are as before. -/
theorem copy_paste_roundtrip :
    (∀ (cfg : Config) (envC envP : Env) (σ : World) (u t : GoString) (m : Message),
        u ≠ [] →
        m = (jsonUnmarshal Message.setField envC.body.1
          { Message.zero with Time := envC.now }).1 →
        m.Identifier = u → m.Text = t →
        (postCopy cfg envC σ).w.status = some 200 →
        (validateToken cfg envP envP.authorization (postCopy cfg envC σ).world).1 = (u, none) →
        envP.datastoreGetError = none →
        (envP.marshal m).2 = none →
        (∃ stored : Message, stored.Identifier = u ∧ stored.Text = t ∧
          (paste cfg envP (postCopy cfg envC σ).world).w.status = some 200 ∧
          (paste cfg envP (postCopy cfg envC σ).world).w.body = (envP.marshal stored).1) ∧
        ∀ k : Key, k ≠ NewKey "copies" u 0 →
          (paste cfg envP (postCopy cfg envC σ).world).world.ds.lookup k = σ.ds.lookup k) ∧
    (∀ (cfg : Config) (envC envP : Env) (σ : World) (session : Session) (u t : GoString)
        (m : Message),
        u ≠ [] →
        envC.session = (session, none) →
        session.get "gplusID" = some u →
        envC.formValue "pasta" = t →
        m = { Identifier := u, Text := t, Time := envC.now } →
        (copyForm cfg envC σ).w.status = some 200 →
        (validateToken cfg envP envP.authorization (copyForm cfg envC σ).world).1 = (u, none) →
        envP.datastoreGetError = none →
        (envP.marshal m).2 = none →
        (∃ stored : Message, stored.Identifier = u ∧ stored.Text = t ∧
          (paste cfg envP (copyForm cfg envC σ).world).w.status = some 200 ∧
          (paste cfg envP (copyForm cfg envC σ).world).w.body = (envP.marshal stored).1) ∧
        ∀ k : Key, k ≠ NewKey "copies" u 0 →
          (paste cfg envP (copyForm cfg envC σ).world).world.ds.lookup k = σ.ds.lookup k) := by
  constructor
  · intro cfg envC envP σ u t m hu hm hmi hmt hok hval hget hmar
    have hds := postCopy_ok cfg envC σ m hm (by rw [hmi]; exact hu) hok
    rw [hmi] at hds
    constructor
    · have hl : (postCopy cfg envC σ).world.ds.lookup (NewKey "copies" u 0) = some m := by
        rw [hds, Datastore.lookup_insert_eq]
      have hp := paste_of_stored cfg envP _ u m hval hget hl hmar
      exact ⟨m, hmi, hmt, hp.1, hp.2⟩
    · intro k hk
      rw [paste_ds, hds, Datastore.lookup_insert_ne _ _ _ _ hk]
  · intro cfg envC envP σ session u t m hu hs hg ht hm hok hval hget hmar
    have hds := copyForm_ok cfg envC σ session u hs hg hu hok
    rw [ht, ← hm] at hds
    constructor
    · have hl : (copyForm cfg envC σ).world.ds.lookup (NewKey "copies" u 0) = some m := by
        rw [hds, Datastore.lookup_insert_eq]
      have hp := paste_of_stored cfg envP _ u m hval hget hl hmar
      exact ⟨m, by rw [hm], by rw [hm], hp.1, hp.2⟩
    · intro k hk
      rw [paste_ds, hds, Datastore.lookup_insert_ne _ _ _ _ hk]


set_option maxRecDepth 100000 in
/-- Witness of C5: the endpoint answers with audience `ios-client`, which is the
configured `iosClientID`, and user id `u1`. -/
theorem validateToken_audience_witness :
    (validateToken exampleConfig pasteEnv (utf8 "bearer") emptyWorld).1 = (utf8 "u1", none) :=
  (validateToken_audience exampleConfig pasteEnv (utf8 "bearer")
    (utf8 "\x7b\"audience\": \"ios-client\", \"user_id\": \"u1\", \"expires_in\": 3600\x7d") emptyWorld
    { IssuedTo := [], Audience := utf8 "ios-client", UserId := utf8 "u1", Scope := [],
      ExpiresIn := 3600, AccessType := [] } rfl (by decide)).2.1 (by decide)

/-- Witness of C8: a `/disconnect` request without cookie. -/
theorem disconnect_without_token_witness :
    disconnect exampleConfig exampleEnv emptyWorld =
      { w := serveErrorResponse, session := some { Values := [] }, world := emptyWorld,
        panicked := false } :=
  disconnect_without_token exampleConfig exampleEnv emptyWorld (by decide)

set_option maxRecDepth 100000 in
/-- Witness of C7: `u1` had the text `old`; after a successful `/copy` (and after
a successful `/copyForm`) of `hello`, `/paste` serialises a record of `u1` with
text `hello`, and the records under other keys are as before. -/
theorem copy_paste_roundtrip_witness :
    ((∃ stored : Message, stored.Identifier = utf8 "u1" ∧ stored.Text = utf8 "hello" ∧
        (paste exampleConfig pasteEnv (postCopy exampleConfig copyEnv exampleWorld).world).w.status =
          some 200 ∧
        (paste exampleConfig pasteEnv (postCopy exampleConfig copyEnv exampleWorld).world).w.body =
          (pasteEnv.marshal stored).1) ∧
      ∀ k : Key, k ≠ NewKey "copies" (utf8 "u1") 0 →
        (paste exampleConfig pasteEnv
          (postCopy exampleConfig copyEnv exampleWorld).world).world.ds.lookup k =
          exampleWorld.ds.lookup k) ∧
    ((∃ stored : Message, stored.Identifier = utf8 "u1" ∧ stored.Text = utf8 "hello" ∧
        (paste exampleConfig pasteEnv
          (copyForm exampleConfig copyFormEnv exampleWorld).world).w.status = some 200 ∧
        (paste exampleConfig pasteEnv
          (copyForm exampleConfig copyFormEnv exampleWorld).world).w.body =
          (pasteEnv.marshal stored).1) ∧
      ∀ k : Key, k ≠ NewKey "copies" (utf8 "u1") 0 →
        (paste exampleConfig pasteEnv
          (copyForm exampleConfig copyFormEnv exampleWorld).world).world.ds.lookup k =
          exampleWorld.ds.lookup k) :=
  ⟨copy_paste_roundtrip.1 exampleConfig copyEnv pasteEnv exampleWorld (utf8 "u1") (utf8 "hello")
      { Identifier := utf8 "u1", Text := utf8 "hello", Time := 1380000000 }
      (by decide) (by decide) rfl rfl (by decide) (by decide) rfl rfl,
    copy_paste_roundtrip.2 exampleConfig copyFormEnv pasteEnv exampleWorld
      { Values := [("gplusID", some (utf8 "u1"))] } (utf8 "u1") (utf8 "hello")
      { Identifier := utf8 "u1", Text := utf8 "hello", Time := 1380000000 }
      (by decide) rfl (by decide) rfl rfl (by decide) (by decide) rfl rfl⟩

/-- C10 as stated fails: the one-byte string consisting of a line feed has a
length congruent to 1 modulo 4, and `base64Decode` returns no error for it;
nor for `AAAA` followed by a line feed, which decodes to three zero bytes. -/
theorem base64Decode_newline_no_error :
    (utf8 "\n").length % 4 = 1 ∧ base64Decode (utf8 "\n") = ([], none) ∧
      (utf8 "AAAA\n").length % 4 = 1 ∧ base64Decode (utf8 "AAAA\n") = ([0, 0, 0], none) := by
  decide

/-- C10, amended. For every byte sequence `b`, `base64Decode` of the URL-safe
base64 encoding of `b` with its trailing `=` padding stripped returns `b` and
no error, and so does `base64Decode` of the fully padded encoding; for every
input without carriage return and line feed whose length is congruent to 1
modulo 4, `base64Decode` returns an error. -/
theorem base64Decode_roundtrip :
    (∀ b : List Byte, base64Decode (trimRightPad (encodeToString encodeURL b)) = (b, none)) ∧
    (∀ b : List Byte, base64Decode (encodeToString encodeURL b) = (b, none)) ∧
    (∀ s : GoString, noNewline s → s.length % 4 = 1 → (base64Decode s).2 ≠ none) :=
  ⟨base64Decode_trimmed, base64Decode_padded, base64Decode_error⟩

set_option maxRecDepth 100000 in
/-- Witness of C10, amended: the bytes of `hi?>`, whose encoding `aGk_Pg==` has
two padding characters, and the five-character input `aGk_P`. -/
theorem base64Decode_roundtrip_witness :
    base64Decode (utf8 "aGk_Pg") = (utf8 "hi?>", none) ∧
      base64Decode (utf8 "aGk_Pg==") = (utf8 "hi?>", none) ∧
      (base64Decode (utf8 "aGk_P")).2 ≠ none :=
  ⟨base64Decode_roundtrip.1 (utf8 "hi?>"), base64Decode_roundtrip.2.1 (utf8 "hi?>"),
    base64Decode_roundtrip.2.2 (utf8 "aGk_P") (by unfold noNewline; decide) (by decide)⟩


theorem index_state (env : Env) :
    ((env.session.1).set "state" (some (randomString env 64))).get "state" =
      some (randomString env 64) :=
  Session.get_set_eq _ _ _

set_option maxRecDepth 100000 in
/-- C9 as stated fails: (1) a `/paste` request with a valid token for `u1`, for
whom nothing is stored: the response has status 500 and its body is the text
of the datastore error, not "Internal Server Error"; (2) a `/` request whose
session fetch fails: `index` serves the page with status 200. -/
theorem paste_datastore_error_text :
    ((validateToken exampleConfig pasteEnv pasteEnv.authorization emptyWorld).1 =
        (utf8 "u1", none) ∧
      (paste exampleConfig pasteEnv emptyWorld).w.status = some 500 ∧
      (paste exampleConfig pasteEnv emptyWorld).w.body = utf8 "datastore: no such entity\n" ∧
      (paste exampleConfig pasteEnv emptyWorld).w.body ≠ utf8 "Internal Server Error") ∧
    ((withSessionError exampleEnv).session.2 ≠ none ∧
      (index exampleConfig (withSessionError exampleEnv) emptyWorld).w.status = some 200 ∧
      (index exampleConfig (withSessionError exampleEnv) emptyWorld).w.body ≠
        utf8 "Internal Server Error") := by
  decide

theorem serveErrorResponse_eq (w : ResponseWriter) (h : w = serveErrorResponse) :
    w.status = some 500 ∧ w.body = utf8 "Internal Server Error" := by
  subst h
  exact ⟨rfl, rfl⟩

theorem errorTextResponse_eq (w : ResponseWriter) (text : String)
    (h : w = errorTextResponse text) :
    w.status = some 500 ∧ w.body = utf8 text ++ utf8 "\n" := by
  subst h
  exact ⟨rfl, rfl⟩

/-- C9, amended.  On the failure paths that end in `serveError` before anything
else is written (`index`: template error with no output; `connect`: mismatch
with a stored state token, body read error, exchange failure, ID token decode
failure; `disconnect`: session fetch error, missing access token, revoke
failure; `copyForm`: session fetch error) the response has status 500 and its
body is exactly "Internal Server Error".  On a datastore error, `paste` (after
a successful validation), `copyForm` and `postCopy` answer with status 500 and
the text of the error followed by a newline.  `index` goes on after a session
fetch error as without it. -/
theorem error_responses :
    (∀ (cfg : Config) (env : Env) (σ : World) (err : Error),
        env.urlPath = utf8 "/" →
        env.executeTemplate cfg.applicationName cfg.clientID
          (queryEscape (randomString env 64)) = ([], some err) →
        (index cfg env σ).w.status = some 500 ∧
          (index cfg env σ).w.body = utf8 "Internal Server Error") ∧
    (∀ (cfg : Config) (env : Env) (σ : World) (session : Session) (st : GoString),
        env.session = (session, none) → session.get "state" = some st →
        env.formValue "state" ≠ st →
        (connect cfg env σ).w.status = some 500 ∧
          (connect cfg env σ).w.body = utf8 "Internal Server Error") ∧
    (∀ (cfg : Config) (env : Env) (σ : World) (session : Session) (x : GoString) (err : Error),
        env.session = (session, none) → session.get "state" = some (env.formValue "state") →
        env.body = (x, some err) →
        (connect cfg env σ).w.status = some 500 ∧
          (connect cfg env σ).w.body = utf8 "Internal Server Error") ∧
    (∀ (cfg : Config) (env : Env) (σ : World) (session : Session) (code : GoString) (err : Error),
        env.session = (session, none) → session.get "state" = some (env.formValue "state") →
        env.body = (code, none) → (exchange cfg env code σ).1.2.2 = some err →
        (connect cfg env σ).w.status = some 500 ∧
          (connect cfg env σ).w.body = utf8 "Internal Server Error") ∧
    (∀ (cfg : Config) (env : Env) (σ : World) (session : Session)
        (code accessToken idToken : GoString) (err : Error),
        env.session = (session, none) → session.get "state" = some (env.formValue "state") →
        env.body = (code, none) → (exchange cfg env code σ).1 = (accessToken, idToken, none) →
        (decodeIdToken idToken).2 = some err →
        (connect cfg env σ).w.status = some 500 ∧
          (connect cfg env σ).w.body = utf8 "Internal Server Error") ∧
    (∀ (cfg : Config) (env : Env) (σ : World) (session : Session) (err : Error),
        env.session = (session, some err) →
        (disconnect cfg env σ).w.status = some 500 ∧
          (disconnect cfg env σ).w.body = utf8 "Internal Server Error") ∧
    (∀ (cfg : Config) (env : Env) (σ : World) (session : Session),
        env.session = (session, none) → session.get "accessToken" = none →
        (disconnect cfg env σ).w.status = some 500 ∧
          (disconnect cfg env σ).w.body = utf8 "Internal Server Error") ∧
    (∀ (cfg : Config) (env : Env) (σ : World) (session : Session) (token : GoString)
        (err : Error),
        env.session = (session, none) → session.get "accessToken" = some token →
        env.get (revokeURL ++ token) = .error err →
        (disconnect cfg env σ).w.status = some 500 ∧
          (disconnect cfg env σ).w.body = utf8 "Internal Server Error") ∧
    (∀ (cfg : Config) (env : Env) (σ : World) (session : Session) (err : Error),
        env.session = (session, some err) →
        (copyForm cfg env σ).w.status = some 500 ∧
          (copyForm cfg env σ).w.body = utf8 "Internal Server Error") ∧
    (∀ (cfg : Config) (env : Env) (σ : World) (userId : GoString) (text : String),
        (validateToken cfg env env.authorization σ).1 = (userId, none) →
        (datastoreGet env (validateToken cfg env env.authorization σ).2
          (NewKey "copies" userId 0) Message.zero).1.2 = some text →
        (paste cfg env σ).w.status = some 500 ∧
          (paste cfg env σ).w.body = utf8 text ++ utf8 "\n") ∧
    (∀ (cfg : Config) (env : Env) (σ : World) (session : Session) (u : GoString) (text : String),
        env.session = (session, none) → session.get "gplusID" = some u →
        env.datastorePutError = some text →
        (copyForm cfg env σ).w.status = some 500 ∧
          (copyForm cfg env σ).w.body = utf8 text ++ utf8 "\n") ∧
    (∀ (cfg : Config) (env : Env) (σ : World) (text : String),
        env.datastorePutError = some text →
        (postCopy cfg env σ).w.status = some 500 ∧
          (postCopy cfg env σ).w.body = utf8 text ++ utf8 "\n") ∧
    (∀ (cfg : Config) (env : Env) (σ : World),
        index cfg env σ = index cfg { env with session := (env.session.1, none) } σ) := by
  refine ⟨?_, ?_, ?_, ?_, ?_, ?_, ?_, ?_, ?_, ?_, ?_, ?_, ?_⟩
  · intro cfg env σ err hp ht
    apply serveErrorResponse_eq
    unfold index
    simp only [hp, ne_eq, not_true_eq_false, if_false, index_state, ht, if_true]
    exact serveError_new err
  · intro cfg env σ session st hs hst hne
    apply serveErrorResponse_eq
    simp [connect, hs, hst, hne, serveError_new]
  · intro cfg env σ session x err hs hst hb
    apply serveErrorResponse_eq
    simp [connect, hs, hst, hb, serveError_new]
  · intro cfg env σ session code err hs hst hb hex
    apply serveErrorResponse_eq
    unfold connect
    simp only [hs, hst, hb, ne_eq, not_true_eq_false, if_false]
    rcases he : exchange cfg env code σ with ⟨⟨a, i, e⟩, σ2⟩
    rw [he] at hex
    simp only at hex
    subst hex
    simp [serveError_new]
  · intro cfg env σ session code accessToken idToken err hs hst hb hex hid
    apply serveErrorResponse_eq
    unfold connect
    simp only [hs, hst, hb, ne_eq, not_true_eq_false, if_false]
    rcases he : exchange cfg env code σ with ⟨r, σ2⟩
    rw [he] at hex
    simp only at hex
    subst hex
    rcases hd : decodeIdToken idToken with ⟨g, e⟩
    rw [hd] at hid
    simp only at hid
    subst hid
    simp [serveError_new, hd]
  · intro cfg env σ session err hs
    apply serveErrorResponse_eq
    simp [disconnect, hs, serveError_new]
  · intro cfg env σ session hs ht
    apply serveErrorResponse_eq
    simp [disconnect, hs, ht, serveError_new]
  · intro cfg env σ session token err hs ht hg
    apply serveErrorResponse_eq
    simp [disconnect, hs, ht, hg, serveError_new]
  · intro cfg env σ session err hs
    apply serveErrorResponse_eq
    simp [copyForm, hs, serveError_new]
  · intro cfg env σ userId text hv hg
    apply errorTextResponse_eq
    unfold paste
    simp only
    rcases hvv : validateToken cfg env env.authorization σ with ⟨r, σ2⟩
    rw [hvv] at hv hg
    simp only at hv hg
    subst hv
    simp only
    rcases hgg : datastoreGet env σ2 (NewKey "copies" userId 0) Message.zero with ⟨⟨m, e⟩, σ3⟩
    rw [hgg] at hg
    simp only at hg
    subst hg
    simp [httpError_new]
  · intro cfg env σ session u text hs hg hp
    apply errorTextResponse_eq
    simp [copyForm, hs, hg, datastorePut, hp, httpError_new]
  · intro cfg env σ text hp
    apply errorTextResponse_eq
    simp [postCopy, datastorePut, hp, httpError_new]
  · intro cfg env σ
    rfl


set_option maxRecDepth 100000 in
/-- Witness of C9, amended: one request for each of the failure paths. -/
theorem error_responses_witness :
    ((index exampleConfig
        { exampleEnv with executeTemplate := fun _ _ _ => ([], some (.external "template")) }
        emptyWorld).w.status = some 500 ∧
      (index exampleConfig
        { exampleEnv with executeTemplate := fun _ _ _ => ([], some (.external "template")) }
        emptyWorld).w.body = utf8 "Internal Server Error") ∧
    ((connect exampleConfig
        { connectEnv stateSession "first" with formValue := fun _ => utf8 "s2" }
        emptyWorld).w.status = some 500 ∧
      (connect exampleConfig
        { connectEnv stateSession "first" with formValue := fun _ => utf8 "s2" }
        emptyWorld).w.body = utf8 "Internal Server Error") ∧
    ((connect exampleConfig
        { connectEnv stateSession "first" with body := ([], some (.external "unexpected EOF")) }
        emptyWorld).w.status = some 500 ∧
      (connect exampleConfig
        { connectEnv stateSession "first" with body := ([], some (.external "unexpected EOF")) }
        emptyWorld).w.body = utf8 "Internal Server Error") ∧
    ((connect exampleConfig
        { connectEnv stateSession "first" with postForm := fun _ _ => .error (.external "fetch") }
        emptyWorld).w.status = some 500 ∧
      (connect exampleConfig
        { connectEnv stateSession "first" with postForm := fun _ _ => .error (.external "fetch") }
        emptyWorld).w.body = utf8 "Internal Server Error") ∧
    ((connect exampleConfig
        { connectEnv stateSession "first" with
          postForm := fun _ _ => .ok (utf8 "\x7b\"access_token\": \"a\", \"id_token\": \"nodots\"\x7d") }
        emptyWorld).w.status = some 500 ∧
      (connect exampleConfig
        { connectEnv stateSession "first" with
          postForm := fun _ _ => .ok (utf8 "\x7b\"access_token\": \"a\", \"id_token\": \"nodots\"\x7d") }
        emptyWorld).w.body = utf8 "Internal Server Error") ∧
    ((disconnect exampleConfig (withSessionError exampleEnv) emptyWorld).w.status = some 500 ∧
      (disconnect exampleConfig (withSessionError exampleEnv) emptyWorld).w.body =
        utf8 "Internal Server Error") ∧
    ((disconnect exampleConfig exampleEnv emptyWorld).w.status = some 500 ∧
      (disconnect exampleConfig exampleEnv emptyWorld).w.body = utf8 "Internal Server Error") ∧
    ((disconnect exampleConfig { exampleEnv with session := (tokenSession, none) }
        emptyWorld).w.status = some 500 ∧
      (disconnect exampleConfig { exampleEnv with session := (tokenSession, none) }
        emptyWorld).w.body = utf8 "Internal Server Error") ∧
    ((copyForm exampleConfig (withSessionError copyFormEnv) emptyWorld).w.status = some 500 ∧
      (copyForm exampleConfig (withSessionError copyFormEnv) emptyWorld).w.body =
        utf8 "Internal Server Error") ∧
    ((paste exampleConfig pasteEnv emptyWorld).w.status = some 500 ∧
      (paste exampleConfig pasteEnv emptyWorld).w.body =
        utf8 ErrNoSuchEntity ++ utf8 "\n") ∧
    ((copyForm exampleConfig (withPutError copyFormEnv) emptyWorld).w.status = some 500 ∧
      (copyForm exampleConfig (withPutError copyFormEnv) emptyWorld).w.body =
        utf8 "datastore: the service is unavailable" ++ utf8 "\n") ∧
    ((postCopy exampleConfig (withPutError copyEnv) emptyWorld).w.status = some 500 ∧
      (postCopy exampleConfig (withPutError copyEnv) emptyWorld).w.body =
        utf8 "datastore: the service is unavailable" ++ utf8 "\n") ∧
    index exampleConfig (withSessionError exampleEnv) emptyWorld =
      index exampleConfig
        { withSessionError exampleEnv with session := ((withSessionError exampleEnv).session.1, none) }
        emptyWorld :=
  ⟨error_responses.1 exampleConfig _ emptyWorld (.external "template") rfl rfl,
    error_responses.2.1 exampleConfig _ emptyWorld stateSession (utf8 "s1") rfl (by decide)
      (by decide),
    error_responses.2.2.1 exampleConfig _ emptyWorld stateSession [] (.external "unexpected EOF")
      rfl (by decide) rfl,
    error_responses.2.2.2.1 exampleConfig _ emptyWorld stateSession (utf8 "c1")
      (.errorf "Exchanging code: %v" (.external "fetch")) rfl (by decide) rfl (by decide),
    error_responses.2.2.2.2.1 exampleConfig _ emptyWorld stateSession (utf8 "c1") (utf8 "a")
      (utf8 "nodots") (.new "Malformed ID token") rfl (by decide) rfl (by decide) (by decide),
    error_responses.2.2.2.2.2.1 exampleConfig _ emptyWorld { Values := [] }
      (.external "securecookie: the value is not valid") rfl,
    error_responses.2.2.2.2.2.2.1 exampleConfig exampleEnv emptyWorld { Values := [] } rfl
      (by decide),
    error_responses.2.2.2.2.2.2.2.1 exampleConfig _ emptyWorld tokenSession (utf8 "first")
      (.external "urlfetch: fetch failed") rfl (by decide) rfl,
    error_responses.2.2.2.2.2.2.2.2.1 exampleConfig _ emptyWorld
      { Values := [("gplusID", some (utf8 "u1"))] }
      (.external "securecookie: the value is not valid") rfl,
    error_responses.2.2.2.2.2.2.2.2.2.1 exampleConfig pasteEnv emptyWorld (utf8 "u1")
      ErrNoSuchEntity (by decide) (by decide),
    error_responses.2.2.2.2.2.2.2.2.2.2.1 exampleConfig _ emptyWorld
      { Values := [("gplusID", some (utf8 "u1"))] } (utf8 "u1")
      "datastore: the service is unavailable" rfl (by decide) rfl,
    error_responses.2.2.2.2.2.2.2.2.2.2.2.1 exampleConfig _ emptyWorld
      "datastore: the service is unavailable" rfl,
    error_responses.2.2.2.2.2.2.2.2.2.2.2.2 exampleConfig (withSessionError exampleEnv)
      emptyWorld⟩


set_option maxRecDepth 100000 in
/-- Witness of `connect_exchange_only_if_state_matches`: a `/connect` request
that reaches the exchange; its `state` form value `s1` is the stored one. -/
theorem connect_exchange_only_if_state_matches_witness :
    (connectEnv stateSession "first").session.1.get "state" =
      some ((connectEnv stateSession "first").formValue "state") :=
  connect_exchange_only_if_state_matches exampleConfig (connectEnv stateSession "first")
    emptyWorld (by decide)


end CopyPasta
